import Mathlib

/-
Verification development for the sb820 prometheus exporter.

The definitions below are a shallow embedding of the python sources:
  app/sb8200/parse.py    (is_login_page, get_current_system_time,
                          _get_uptime_str_as_timedelta)
  app/sb8200/metrics.py  (DS_METRICS, US_METRICS)
  app/sb8200/scrape.py   (_do_metrics_update, update_connection_channel_metrics,
                          login/fetch status policy of do_modem_scrape)
  app/main.py            (the poll loop body)

Strings are manipulated through explicit List Char helpers so that every
definition reduces in the kernel.  Python exceptions are modelled with
Except String; functions that can raise return Except, functions that
return None on failure return Option.
-/

/-! ## Python string primitives -/

/-- Whitespace characters recognised by python str.strip / regex \s
(ASCII subset; the scraped pages are ASCII). -/
def isPySpace (c : Char) : Bool :=
  c = ' ' || c = '\t' || c = '\n' || c = '\r' || c = '\x0b' || c = '\x0c'

/-- Strip leading and trailing whitespace from a character list. -/
def trimChars (cs : List Char) : List Char :=
  ((cs.dropWhile isPySpace).reverse.dropWhile isPySpace).reverse

/-- Model of python str.strip(). -/
def pyStrip (s : String) : String :=
  (trimChars s.data).asString

/-- Model of python str.split(sep) for a single separator character:
splits on every occurrence, keeping empty fields. -/
def splitChar (sep : Char) : List Char → List (List Char)
  | [] => [[]]
  | c :: cs =>
    if c = sep then [] :: splitChar sep cs
    else
      match splitChar sep cs with
      | [] => [[c]]
      | t :: ts => (c :: t) :: ts

/-- The first whitespace-token of a cell: row[col].split(" ")[0]
(scrape.py lines 340-341). -/
def firstToken (s : String) : String :=
  ((splitChar ' ' s.data).headD []).asString

/-- Split a string at the first occurrence of a separator, python
s.split(sep, 1); none when the separator does not occur. -/
def splitFirst (sep : Char) : List Char → Option (List Char × List Char)
  | [] => none
  | c :: cs =>
    if c = sep then some ([], cs)
    else
      match splitFirst sep cs with
      | none => none
      | some (pre, post) => some (c :: pre, post)

/-- Numeric value of a list of decimal digit characters. -/
def digitsVal (cs : List Char) : Nat :=
  cs.foldl (fun n c => n * 10 + (c.toNat - '0'.toNat)) 0

/-- Model of python int(s): optional surrounding whitespace, optional
sign, one or more decimal digits.  (Digit-group underscores and
non-ASCII digits, which never occur in the scraped pages, are not
modelled.) -/
def pyInt (s : String) : Option Int :=
  let t := trimChars s.data
  let sr : Int × List Char :=
    match t with
    | '+' :: r => (1, r)
    | '-' :: r => (-1, r)
    | r => (1, r)
  if !sr.2.isEmpty && sr.2.all Char.isDigit then
    some (sr.1 * (digitsVal sr.2 : Int))
  else none

/-- Exact numeric model of a python float value: the pair denotes
num / 10 ^ pow.  All values appearing in the scraped pages are short
decimal literals, for which this representation is exact (no binary
rounding is modelled); Nat/Int arithmetic keeps every definition
kernel-reducible. -/
structure PyVal where
  num : Int
  pow : Nat
  deriving DecidableEq, Repr

/-- Embed a natural number (python float(int_value)). -/
def PyVal.ofNat (n : Nat) : PyVal := ⟨n, 0⟩

/-- Exact addition of two decimal fixed-point values. -/
def PyVal.add (a b : PyVal) : PyVal :=
  ⟨a.num * (10 : Int) ^ b.pow + b.num * (10 : Int) ^ a.pow, a.pow + b.pow⟩

/-- Model of python float(s) on decimal literals: optional surrounding
whitespace, optional sign, digits with optional fractional part and
optional exponent; inf/nan and underscores are not modelled. -/
def pyFloat (s : String) : Option PyVal :=
  let t := trimChars s.data
  let sr : Int × List Char :=
    match t with
    | '+' :: r => (1, r)
    | '-' :: r => (-1, r)
    | r => (1, r)
  let ip := sr.2.takeWhile Char.isDigit
  let r2 := sr.2.dropWhile Char.isDigit
  let fr : List Char × List Char :=
    match r2 with
    | '.' :: r => (r.takeWhile Char.isDigit, r.dropWhile Char.isDigit)
    | _ => ([], r2)
  if ip.isEmpty && fr.1.isEmpty then none
  else
    let base : PyVal :=
      ⟨sr.1 * ((digitsVal ip * 10 ^ fr.1.length + digitsVal fr.1 : Nat) : Int), fr.1.length⟩
    match fr.2 with
    | [] => some base
    | 'e' :: r | 'E' :: r =>
      let er : Bool × List Char :=
        match r with
        | '+' :: rr => (false, rr)
        | '-' :: rr => (true, rr)
        | rr => (false, rr)
      let ed := er.2.takeWhile Char.isDigit
      if ed.isEmpty || !(er.2.dropWhile Char.isDigit).isEmpty then none
      else if er.1 then some ⟨base.num, base.pow + digitsVal ed⟩
      else some ⟨base.num * (10 : Int) ^ digitsVal ed, base.pow⟩
    | _ => none

/-- Normalisation applied in the Counter branch of _do_metrics_update
(scrape.py lines 377-379): value.upper().replace("-", "_"). -/
def pyEnumNormalize (s : String) : String :=
  ((s.data.map Char.toUpper).map (fun c => if c = '-' then '_' else c)).asString

/-! ## parse.py : is_login_page -/

/-- The slice of a BeautifulSoup document the embedded functions read:
the text of the title element (none when the document has no title
element, in which case soup.find("title") returns python None). -/
structure HtmlDoc where
  title : Option String
  deriving DecidableEq, Repr

/-- parse.py lines 16-18:
return soup.find("title").text.strip() == "Login".
When the document has no title element, find returns None and the
attribute access raises AttributeError. -/
def is_login_page (doc : HtmlDoc) : Except String Bool :=
  match doc.title with
  | none => .error "AttributeError"
  | some t => .ok (pyStrip t == "Login")

/-! ## parse.py : _get_uptime_str_as_timedelta -/

/-- Consume one or more decimal digits (regex \d+, greedy). -/
def parseDigits (cs : List Char) : Option (Nat × List Char) :=
  let d := cs.takeWhile Char.isDigit
  if d.isEmpty then none else some (digitsVal d, cs.dropWhile Char.isDigit)

/-- Consume an exact literal. -/
def parseLit : List Char → List Char → Option (List Char)
  | [], cs => some cs
  | _ :: _, [] => none
  | p :: ps, c :: cs => if c = p then parseLit ps cs else none

/-- parse.py lines 181-200, as the total seconds of the resulting
timedelta: re.match(r"(d+) days (d+)h:(d+)m:(d+)s", uptime) (with
backslash-d written d here), anchored at the start, trailing text
ignored; no match yields None and nothing raises. -/
def get_uptime_str_as_timedelta (uptime : String) : Option Nat :=
  match parseDigits uptime.data with
  | none => none
  | some (d, r1) =>
  match parseLit " days ".data r1 with
  | none => none
  | some r2 =>
  match parseDigits r2 with
  | none => none
  | some (h, r3) =>
  match parseLit "h:".data r3 with
  | none => none
  | some r4 =>
  match parseDigits r4 with
  | none => none
  | some (mi, r5) =>
  match parseLit "m:".data r5 with
  | none => none
  | some r6 =>
  match parseDigits r6 with
  | none => none
  | some (sec, r7) =>
  match parseLit "s".data r7 with
  | none => none
  | some _ => some (d * 86400 + h * 3600 + mi * 60 + sec)

/-! ## parse.py : get_current_system_time -/

/-- Case-insensitive literal match (the strptime regex is compiled with
IGNORECASE). -/
def parseLitCI : List Char → List Char → Option (List Char)
  | [], cs => some cs
  | _ :: _, [] => none
  | p :: ps, c :: cs => if c.toLower = p.toLower then parseLitCI ps cs else none

/-- First matching alternative of a list of literals, returning its
index; the alternatives used below all have the same length, so the
regex alternation order is irrelevant. -/
def parseAlt (pats : List String) (cs : List Char) : Option (Nat × List Char) :=
  match pats with
  | [] => none
  | p :: ps =>
    match parseLitCI p.data cs with
    | some r => some (0, r)
    | none =>
      match parseAlt ps cs with
      | none => none
      | some (i, r) => some (i + 1, r)

/-- One or more whitespace characters (a space in the strptime format
becomes \s+). -/
def parseWs1 (cs : List Char) : Option (List Char) :=
  match cs with
  | c :: rest => if isPySpace c then some (rest.dropWhile isPySpace) else none
  | [] => none

def digitVal (c : Char) : Nat := c.toNat - '0'.toNat

/-- strptime %d: regex 3[01]|[12]d|0[1-9]|[1-9] tried in order.  The
token is always followed by whitespace, which no digit matches, so
trying the alternatives in order without further backtracking agrees
with the regex. -/
def parseDayNum : List Char → Option (Nat × List Char)
  | c1 :: c2 :: r =>
    if c1 = '3' && (c2 = '0' || c2 = '1') then some (30 + digitVal c2, r)
    else if (c1 = '1' || c1 = '2') && c2.isDigit then some (digitVal c1 * 10 + digitVal c2, r)
    else if c1 = '0' && ('1' ≤ c2 && c2 ≤ '9') then some (digitVal c2, r)
    else if '1' ≤ c1 && c1 ≤ '9' then some (digitVal c1, c2 :: r)
    else none
  | [c1] => if '1' ≤ c1 && c1 ≤ '9' then some (digitVal c1, []) else none
  | [] => none

/-- strptime %H: regex 2[0-3]|[0-1]d|d. -/
def parseHourNum : List Char → Option (Nat × List Char)
  | c1 :: c2 :: r =>
    if c1 = '2' && ('0' ≤ c2 && c2 ≤ '3') then some (20 + digitVal c2, r)
    else if (c1 = '0' || c1 = '1') && c2.isDigit then some (digitVal c1 * 10 + digitVal c2, r)
    else if c1.isDigit then some (digitVal c1, c2 :: r)
    else none
  | [c1] => if c1.isDigit then some (digitVal c1, []) else none
  | [] => none

/-- strptime %M: regex [0-5]d|d. -/
def parseMinNum : List Char → Option (Nat × List Char)
  | c1 :: c2 :: r =>
    if ('0' ≤ c1 && c1 ≤ '5') && c2.isDigit then some (digitVal c1 * 10 + digitVal c2, r)
    else if c1.isDigit then some (digitVal c1, c2 :: r)
    else none
  | [c1] => if c1.isDigit then some (digitVal c1, []) else none
  | [] => none

/-- strptime %S: regex 6[0-1]|[0-5]d|d. -/
def parseSecNum : List Char → Option (Nat × List Char)
  | c1 :: c2 :: r =>
    if c1 = '6' && (c2 = '0' || c2 = '1') then some (60 + digitVal c2, r)
    else if ('0' ≤ c1 && c1 ≤ '5') && c2.isDigit then some (digitVal c1 * 10 + digitVal c2, r)
    else if c1.isDigit then some (digitVal c1, c2 :: r)
    else none
  | [c1] => if c1.isDigit then some (digitVal c1, []) else none
  | [] => none

/-- strptime %Y: exactly four digits. -/
def parseYearNum : List Char → Option (Nat × List Char)
  | c1 :: c2 :: c3 :: c4 :: r =>
    if c1.isDigit && c2.isDigit && c3.isDigit && c4.isDigit then
      some (digitVal c1 * 1000 + digitVal c2 * 100 + digitVal c3 * 10 + digitVal c4, r)
    else none
  | _ => none

def dayAbbrevs : List String := ["Mon", "Tue", "Wed", "Thu", "Fri", "Sat", "Sun"]

def monthAbbrevs : List String :=
  ["Jan", "Feb", "Mar", "Apr", "May", "Jun", "Jul", "Aug", "Sep", "Oct", "Nov", "Dec"]

def isLeapYear (y : Nat) : Bool :=
  y % 4 = 0 && (y % 100 ≠ 0 || y % 400 = 0)

def daysInMonth (month year : Nat) : Nat :=
  if month = 2 then (if isLeapYear year then 29 else 28)
  else if month = 4 || month = 6 || month = 9 || month = 11 then 30
  else 31

/-- A parsed datetime value. -/
structure PyDateTime where
  year : Nat
  month : Nat
  day : Nat
  hour : Nat
  minute : Nat
  second : Nat
  deriving DecidableEq, Repr

/-- Model of datetime.strptime(s, "%a %b %d %H:%M:%S %Y"); none models
the ValueError raised on a non-matching string, on unconverted
trailing data, and on a calendar-invalid date or second 60/61
(rejected by the datetime constructor). -/
def strptimeAB (s : String) : Option PyDateTime :=
  match parseAlt dayAbbrevs s.data with
  | none => none
  | some (_, r1) =>
  match parseWs1 r1 with
  | none => none
  | some r2 =>
  match parseAlt monthAbbrevs r2 with
  | none => none
  | some (mIdx, r3) =>
  match parseWs1 r3 with
  | none => none
  | some r4 =>
  match parseDayNum r4 with
  | none => none
  | some (day, r5) =>
  match parseWs1 r5 with
  | none => none
  | some r6 =>
  match parseHourNum r6 with
  | none => none
  | some (hour, r7) =>
  match r7 with
  | ':' :: r8 =>
    (match parseMinNum r8 with
    | none => none
    | some (minute, r9) =>
    match r9 with
    | ':' :: r10 =>
      (match parseSecNum r10 with
      | none => none
      | some (sec, r11) =>
      match parseWs1 r11 with
      | none => none
      | some r12 =>
      match parseYearNum r12 with
      | none => none
      | some (year, r13) =>
      if r13.isEmpty && sec ≤ 59 && 1 ≤ year && 1 ≤ day && day ≤ daysInMonth (mIdx + 1) year then
        some ⟨year, mIdx + 1, day, hour, minute, sec⟩
      else none)
    | _ => none)
  | _ => none

/-- parse.py lines 76-87.  The input is the text of the paragraph
element with id systime when present (soup.find returning None is
modelled by none).  The code strips the text, splits on the first
colon taking index 1 (IndexError when there is no colon), strips and
runs strptime (ValueError when the remainder does not match). -/
def get_current_system_time (systime : Option String) :
    Except String (Option PyDateTime) :=
  match systime with
  | none => .ok none
  | some txt =>
    match splitFirst ':' (trimChars txt.data) with
    | none => .error "IndexError"
    | some (_, post) =>
      match strptimeAB (pyStrip post.asString) with
      | none => .error "ValueError"
      | some dt => .ok (some dt)

/-! ## metrics.py : metric schema -/

inductive MetricKind
  | gauge
  | summary
  | counter
  deriving DecidableEq, Repr

/-- A prometheus_client metric object, identified by its registered
name and its class (which selects set/observe/inc in the projection). -/
structure MetricRef where
  name : String
  kind : MetricKind
  deriving DecidableEq, Repr

/-- One value of the DS_METRICS / US_METRICS ordered dicts: the dict
{"metric": ..., "flags": ...}; metric none models "metric": None,
flags some models the "cumulative" flag. -/
structure MetricEntry where
  metric : Option MetricRef
  flags : Option String
  deriving DecidableEq, Repr

/-- An OrderedDict mapping column header to entry (none models a key
whose value is python None, e.g. the Channel ID column). -/
abbrev MetricsMap := List (String × Option MetricEntry)

/-- metrics.py lines 42-252: the downstream table schema. -/
def DS_METRICS : MetricsMap :=
  [ ("Channel ID", none),
    ("Lock Status", some ⟨some ⟨"sb8200_downstream_channel_lock_status_count", .gauge⟩, some "cumulative"⟩),
    ("Modulation", some ⟨some ⟨"sb8200_downstream_modulation_scheme_count", .gauge⟩, some "cumulative"⟩),
    ("Frequency", some ⟨some ⟨"sb8200_downstream_frequency_hz", .gauge⟩, none⟩),
    ("Power", some ⟨some ⟨"sb8200_downstream_power_dbmv", .gauge⟩, none⟩),
    ("SNR/MER", some ⟨some ⟨"sb8200_downstream_snr_dbmv", .gauge⟩, none⟩),
    ("Corrected", some ⟨some ⟨"sb8200_downstream_corrected", .summary⟩, none⟩),
    ("Uncorrectables", some ⟨some ⟨"sb8200_downstream_uncorrectable", .summary⟩, none⟩) ]

/-- metrics.py lines 259-304: the upstream table schema. -/
def US_METRICS : MetricsMap :=
  [ ("Channel", none),
    ("Channel ID", none),
    ("Lock Status", some ⟨some ⟨"sb8200_upstream_channel_lock_count", .gauge⟩, some "cumulative"⟩),
    ("US Channel Type", some ⟨some ⟨"sb8200_upstream_channel_type", .gauge⟩, some "cumulative"⟩),
    ("Frequency", some ⟨some ⟨"sb8200_upstream_frequency_hz", .gauge⟩, none⟩),
    ("Width", some ⟨some ⟨"sb8200_upstream_ch_width_hz", .gauge⟩, none⟩),
    ("Power", some ⟨some ⟨"sb8200_upstream_power_dbmv", .gauge⟩, none⟩) ]

/-! ## scrape.py : _do_metrics_update -/

/-- One row of an extracted table: the trimmed cell strings. -/
abbrev Row := List String

/-- One write into the prometheus registry performed by the projection:
gset is Gauge.labels(channel_id).set, sobserve is
Summary.labels(channel_id).observe, cinc is Counter.labels(v).inc,
cumset is the final Gauge.labels(value).set(count) of a cumulative
column. -/
inductive Update
  | gset (metric : String) (channelId : Int) (value : PyVal)
  | sobserve (metric : String) (channelId : Int) (value : PyVal)
  | cinc (metric : String) (label : String)
  | cumset (metric : String) (label : String) (value : PyVal)
  deriving DecidableEq, Repr

def Update.metricName : Update → String
  | .gset n _ _ => n
  | .sobserve n _ _ => n
  | .cinc n _ => n
  | .cumset n _ _ => n

def Update.isCumset : Update → Bool
  | .cumset _ _ _ => true
  | _ => false

/-- Association-list lookup keyed by string (python dict access). -/
def alookup {β : Type} : List (String × β) → String → Option β
  | [], _ => none
  | (k, v) :: rest, n => if k = n then some v else alookup rest n

/-- Python: if value not in tally: tally[value] = 1 else tally[value] += 1
(insertion-ordered dict: new keys are appended). -/
def bumpTally : List (String × Nat) → String → List (String × Nat)
  | [], v => [(v, 1)]
  | (k, n) :: rest, v =>
    if k = v then (k, n + 1) :: rest else (k, n) :: bumpTally rest v

/-- Python (scrape.py lines 350-356): ensure the per-column tally dict
exists, then bump the count of the value in it. -/
def bumpAt : List (String × List (String × Nat)) → String → String → List (String × List (String × Nat))
  | [], name, v => [(name, bumpTally [] v)]
  | (k, t) :: rest, name, v =>
    if k = name then (k, bumpTally t v) :: rest
    else (k, t) :: bumpAt rest name v

/-- Python (scrape.py lines 347-348): store the metric under the column
name on first sight only. -/
def ensureMetric : List (String × MetricRef) → String → MetricRef → List (String × MetricRef)
  | [], name, met => [(name, met)]
  | (k, m0) :: rest, name, met =>
    if k = name then (k, m0) :: rest
    else (k, m0) :: ensureMetric rest name met

/-- The mutable state of one _do_metrics_update call: the registry
writes performed so far, _cumulative_sum_metrics and
_cumulative_sum_metric_values. -/
structure ProjState where
  updates : List Update
  cumMetrics : List (String × MetricRef)
  cumValues : List (String × List (String × Nat))
  deriving DecidableEq, Repr

/-- Body of the inner column loop of _do_metrics_update (scrape.py
lines 324-397) for one cell: skip columns without a metric, skip the
channel id column, tally flagged (cumulative) columns, otherwise update
the metric with the first token of the cell, skipping the cell when the
float cast raises ValueError. -/
def processCell (chIdx : Nat) (chId : Int) (row : Row) (st : ProjState)
    (colIdx : Nat) (name : String) (entry : Option MetricEntry) : ProjState :=
  match entry with
  | none => st
  | some e =>
    match e.metric with
    | none => st
    | some met =>
      if colIdx = chIdx then st
      else
        let value := firstToken ((row[colIdx]?).getD "")
        if e.flags.isSome then
          { st with cumMetrics := ensureMetric st.cumMetrics name met,
                    cumValues := bumpAt st.cumValues name value }
        else
          match met.kind with
          | .gauge =>
            match pyFloat value with
            | some q => { st with updates := st.updates ++ [.gset met.name chId q] }
            | none => st
          | .summary =>
            match pyFloat value with
            | some q => { st with updates := st.updates ++ [.sobserve met.name chId q] }
            | none => st
          | .counter =>
            { st with updates := st.updates ++ [.cinc met.name (pyEnumNormalize value)] }

/-- for col_idx, metric_dict in enumerate(metrics_map.values()) with a
running column index. -/
def processCells (chIdx : Nat) (chId : Int) (row : Row) :
    ProjState → Nat → List (String × Option MetricEntry) → ProjState
  | st, _, [] => st
  | st, colIdx, (name, entry) :: rest =>
    processCells chIdx chId row (processCell chIdx chId row st colIdx name entry) (colIdx + 1) rest

/-- The row loop of _do_metrics_update (scrape.py lines 305-397): a row
whose cell count differs from the header count is logged and skipped;
otherwise the channel id cell is cast with int(), whose ValueError is
not caught and aborts the call; then every column of the row is
processed. -/
def processRows (m : MetricsMap) (chIdx : Nat) : ProjState → List Row → ProjState × Option String
  | st, [] => (st, none)
  | st, r :: rs =>
    if r.length = m.length then
      match pyInt ((r[chIdx]?).getD "") with
      | none => (st, some "ValueError")
      | some chId => processRows m chIdx (processCells chIdx chId r st 0 m) rs
    else processRows m chIdx st rs

/-- The final cumulative loop of _do_metrics_update (scrape.py lines
401-407): for each stored metric, set the gauge labelled by each
distinct value to its tally. -/
def cumEmit (st : ProjState) : List Update :=
  st.cumMetrics.flatMap (fun p =>
    ((alookup st.cumValues p.1).getD []).map (fun vc => Update.cumset p.2.name vc.1 (PyVal.ofNat vc.2)))

/-- scrape.py lines 268-407, _do_metrics_update: returns the registry
writes in order and, in the second component, the message of an
uncaught exception (which in the source aborts the call before the
cumulative loop runs). -/
def do_metrics_update (chData : List Row) (m : MetricsMap) : List Update × Option String :=
  let headers := m.map Prod.fst
  if "Channel ID" ∈ headers then
    match processRows m (headers.indexOf "Channel ID") ⟨[], [], []⟩ chData with
    | (st, some e) => (st.updates, some e)
    | (st, none) => (st.updates ++ cumEmit st, none)
  else ([], none)

/-! ## Specification-side decomposition of the projection

These definitions recompute what _do_metrics_update does as independent
per-cell and per-column functions; the refinement lemmas below prove
them equal to the fold above. -/

/-- The per-row (non-cumulative) update contributed by one cell, if
any: none both for skipped cells and for cells whose float cast fails. -/
def cellPerRowUpdate (chIdx : Nat) (chId : Int) (row : Row)
    (colIdx : Nat) (_name : String) (entry : Option MetricEntry) : Option Update :=
  match entry with
  | none => none
  | some e =>
    match e.metric with
    | none => none
    | some met =>
      if colIdx = chIdx then none
      else
        let value := firstToken ((row[colIdx]?).getD "")
        if e.flags.isSome then none
        else
          match met.kind with
          | .gauge => (pyFloat value).map (Update.gset met.name chId)
          | .summary => (pyFloat value).map (Update.sobserve met.name chId)
          | .counter => some (Update.cinc met.name (pyEnumNormalize value))

/-- The cumulative tally contribution of one cell: column name, metric
and the tallied value string. -/
def cellCumEntry (chIdx : Nat) (row : Row)
    (colIdx : Nat) (name : String) (entry : Option MetricEntry) :
    Option (String × MetricRef × String) :=
  match entry with
  | none => none
  | some e =>
    match e.metric with
    | none => none
    | some met =>
      if colIdx = chIdx then none
      else if e.flags.isSome then some (name, met, firstToken ((row[colIdx]?).getD ""))
      else none

def perRowUpdatesFrom (chIdx : Nat) (chId : Int) (row : Row) :
    Nat → List (String × Option MetricEntry) → List Update
  | _, [] => []
  | colIdx, (name, entry) :: rest =>
    (cellPerRowUpdate chIdx chId row colIdx name entry).toList
      ++ perRowUpdatesFrom chIdx chId row (colIdx + 1) rest

def cumEntriesFrom (chIdx : Nat) (row : Row) :
    Nat → List (String × Option MetricEntry) → List (String × MetricRef × String)
  | _, [] => []
  | colIdx, (name, entry) :: rest =>
    (cellCumEntry chIdx row colIdx name entry).toList
      ++ cumEntriesFrom chIdx row (colIdx + 1) rest

/-- The channel id label of a row (int(row[ch_id_idx]); the default is
irrelevant when the cast succeeds). -/
def chIdOf (chIdx : Nat) (r : Row) : Int := (pyInt ((r[chIdx]?).getD "")).getD 0

/-- All per-row updates of a table, one independent pass per cell. -/
def perRowUpdatesOf (m : MetricsMap) (chIdx : Nat) (rows : List Row) : List Update :=
  rows.flatMap (fun r => perRowUpdatesFrom chIdx (chIdOf chIdx r) r 0 m)

def cumMetricsOf (m : MetricsMap) (chIdx : Nat) (rows : List Row) : List (String × MetricRef) :=
  (rows.flatMap (fun r => cumEntriesFrom chIdx r 0 m)).foldl
    (fun cm e => ensureMetric cm e.1 e.2.1) []

def cumValuesOf (m : MetricsMap) (chIdx : Nat) (rows : List Row) :
    List (String × List (String × Nat)) :=
  (rows.flatMap (fun r => cumEntriesFrom chIdx r 0 m)).foldl
    (fun cv e => bumpAt cv e.1 e.2.2) []

/-- The cumulative updates of a table, recomputed from the tallies. -/
def cumUpdatesOf (m : MetricsMap) (chIdx : Nat) (rows : List Row) : List Update :=
  (cumMetricsOf m chIdx rows).flatMap (fun p =>
    ((alookup (cumValuesOf m chIdx rows) p.1).getD []).map
      (fun vc => Update.cumset p.2.name vc.1 (PyVal.ofNat vc.2)))

/-! ## Registry semantics -/

/-- The prometheus registry, keyed by (metric name, label value). -/
abbrev Registry := List ((String × String) × PyVal)

def regLookup : Registry → String × String → Option PyVal
  | [], _ => none
  | (k, v) :: rest, key => if k = key then some v else regLookup rest key

/-- Gauge.set semantics: replace the value of the labelled series. -/
def regSet : Registry → String × String → PyVal → Registry
  | [], key, v => [(key, v)]
  | (k, w) :: rest, key, v =>
    if k = key then (k, v) :: rest else (k, w) :: regSet rest key v

/-- Counter.inc / Summary.observe semantics: add to the series. -/
def regAdd : Registry → String × String → PyVal → Registry
  | [], key, v => [(key, v)]
  | (k, w) :: rest, key, v =>
    if k = key then (k, w.add v) :: rest else (k, w) :: regAdd rest key v

def applyUpdate (r : Registry) : Update → Registry
  | .gset n cid v => regSet r (n, toString cid) v
  | .sobserve n cid v => regAdd r (n, toString cid) v
  | .cinc n l => regAdd r (n, l) (PyVal.ofNat 1)
  | .cumset n l v => regSet r (n, l) v

def applyUpdates (r : Registry) (us : List Update) : Registry :=
  us.foldl applyUpdate r

/-! ## scrape.py : update_connection_channel_metrics -/

/-- The slice of the connection status page the function reads: the
systime paragraph text (none when the element is missing) and the
results of the two table extractions (none models _extract_table_rows
returning None because the section title was not found). -/
structure ChannelPage where
  systime : Option String
  downstream : Option (List Row)
  upstream : Option (List Row)
  deriving Repr

/-- scrape.py lines 131-174: parse the system time, then extract and
project downstream channels, then upstream channels.  Returns the
c_meta_parse_result counter increments (target, success) in order, the
registry writes, and the message of an exception propagating out of
the call, if any. -/
def update_connection_channel_metrics (p : ChannelPage) :
    List (String × Bool) × List Update × Option String :=
  match get_current_system_time p.systime with
  | .error e => ([], [], some e)
  | .ok parsedTime =>
    let ev0 := [("datetime", parsedTime.isSome)]
    match p.downstream with
    | none => (ev0 ++ [("conn_downstream", false)], [], none)
    | some ds =>
      let ev1 := ev0 ++ [("conn_downstream", true)]
      match do_metrics_update ds DS_METRICS with
      | (us1, some e) => (ev1, us1, some e)
      | (us1, none) =>
        match p.upstream with
        | none => (ev1 ++ [("conn_upstream", false)], us1, none)
        | some usr =>
          let ev2 := ev1 ++ [("conn_upstream", true)]
          match do_metrics_update usr US_METRICS with
          | (us2, err2) => (ev2, us1 ++ us2, err2)

/-! ## main.py : the poll loop body -/

/-- The loop-carried state of main(): the csrf token variable and the
size of the cookie jar. -/
structure LoopState where
  csrf : Option String
  cookies : Nat
  deriving DecidableEq, Repr

/-- The observable outcome of one cycle: a fetch environment.  Statuses
are the HTTP codes of the login request and the two data requests
(scrape.py raises ModemNotOkError on any non-200); the titles feed
is_login_page; processOk is false when one of the three update_*
calls raises (swallowed by the broad except in main.py). -/
structure FetchEnv where
  authPresent : Bool
  loginStatus : Nat
  loginToken : String
  loginSetsCookie : Bool
  connStatus : Nat
  prodStatus : Nat
  connTitle : Option String
  prodTitle : Option String
  processOk : Bool
  deriving DecidableEq, Repr

/-- How one iteration of the while loop ends: break, continue
immediately, or sleep then continue. -/
inductive CycleResult
  | stopped
  | continueNow
  | sleepThenContinue (seconds : Nat)
  deriving DecidableEq, Repr

/-- main.py line 82: reuse_login = len(cookie_jar) > 0 and csrf_token
is not None. -/
def reuse_login (st : LoopState) : Bool :=
  decide (0 < st.cookies) && st.csrf.isSome

/-- main.py lines 89-100: both pages fetched, login page detection with
python short-circuit or; on detection csrf_token is cleared and the
loop either continues at once (session was reused) or sleeps the
re-login interval first (fresh login this cycle). -/
def cycleLoginCheck (pollI reloginI : Nat) (env : FetchEnv) (reuse : Bool)
    (st1 : LoopState) : CycleResult × LoopState :=
  match is_login_page ⟨env.connTitle⟩ with
  | .error _ => (.continueNow, st1)
  | .ok true =>
    let st2 := { st1 with csrf := none }
    if reuse then (.continueNow, st2) else (.sleepThenContinue reloginI, st2)
  | .ok false =>
    match is_login_page ⟨env.prodTitle⟩ with
    | .error _ => (.continueNow, st1)
    | .ok true =>
      let st2 := { st1 with csrf := none }
      if reuse then (.continueNow, st2) else (.sleepThenContinue reloginI, st2)
    | .ok false =>
      if env.processOk then (.sleepThenContinue pollI, st1) else (.continueNow, st1)

/-- Data fetches (scrape.py lines 98-123): any non-200 raises
ModemNotOkError, which main.py lines 119-125 catches with break. -/
def cycleFetch (pollI reloginI : Nat) (env : FetchEnv) (reuse : Bool)
    (st1 : LoopState) : CycleResult × LoopState :=
  if env.connStatus ≠ 200 then (.stopped, st1)
  else if env.prodStatus ≠ 200 then (.stopped, st1)
  else cycleLoginCheck pollI reloginI env reuse st1

/-- One iteration of the while loop of main.py lines 79-130.  When no
session is reused the login of scrape.py lines 54-90 runs first: a
missing auth token raises NoAuthTokenError (break), a non-200 login
status raises ModemNotOkError (break, the 401 message differing only
in text), a 200 yields the csrf token and merges the session cookie. -/
def main_loop_cycle (pollI reloginI : Nat) (st : LoopState) (env : FetchEnv) :
    CycleResult × LoopState :=
  let reuse := reuse_login st
  if reuse then cycleFetch pollI reloginI env reuse st
  else if !env.authPresent then (.stopped, st)
  else if env.loginStatus ≠ 200 then (.stopped, st)
  else
    cycleFetch pollI reloginI env reuse
      ⟨some env.loginToken, if env.loginSetsCookie then st.cookies + 1 else st.cookies⟩

/-! ## General helper instances and lemmas -/

instance exceptDecEq {e a : Type} [DecidableEq e] [DecidableEq a] :
    DecidableEq (Except e a) := fun x y =>
  match x, y with
  | .error u, .error v =>
    if h : u = v then isTrue (by rw [h]) else isFalse (fun hh => by cases hh; exact h rfl)
  | .ok u, .ok v =>
    if h : u = v then isTrue (by rw [h]) else isFalse (fun hh => by cases hh; exact h rfl)
  | .error _, .ok _ => isFalse (fun hh => by cases hh)
  | .ok _, .error _ => isFalse (fun hh => by cases hh)

theorem foldl_flatMap {α β γ : Type} (f : γ → β → γ) (g : α → List β) :
    ∀ (l : List α) (b : γ), (l.flatMap g).foldl f b = l.foldl (fun b a => (g a).foldl f b) b := by
  intro l
  induction l with
  | nil => intro b; rfl
  | cons x xs ih => intro b; simp [List.flatMap_cons, List.foldl_append, ih]

/-! ## Refinement: the projection fold decomposes per cell -/

theorem processCell_split (chIdx : Nat) (chId : Int) (row : Row) (st : ProjState)
    (colIdx : Nat) (name : String) (entry : Option MetricEntry) :
    processCell chIdx chId row st colIdx name entry =
      { updates := st.updates ++ (cellPerRowUpdate chIdx chId row colIdx name entry).toList,
        cumMetrics :=
          (match cellCumEntry chIdx row colIdx name entry with
            | some e => ensureMetric st.cumMetrics e.1 e.2.1
            | none => st.cumMetrics),
        cumValues :=
          (match cellCumEntry chIdx row colIdx name entry with
            | some e => bumpAt st.cumValues e.1 e.2.2
            | none => st.cumValues) } := by
  rcases entry with _ | e
  · simp [processCell, cellPerRowUpdate, cellCumEntry]
  rcases e with ⟨met, flags⟩
  rcases met with _ | met
  · simp [processCell, cellPerRowUpdate, cellCumEntry]
  by_cases h : colIdx = chIdx
  · simp [processCell, cellPerRowUpdate, cellCumEntry, h]
  rcases flags with _ | fl
  · cases hk : met.kind <;>
      cases hf : pyFloat (firstToken ((row[colIdx]?).getD "")) <;>
        simp [processCell, cellPerRowUpdate, cellCumEntry, h, hk, hf]
  · simp [processCell, cellPerRowUpdate, cellCumEntry, h]

theorem processCells_split (chIdx : Nat) (chId : Int) (row : Row) :
    ∀ (L : List (String × Option MetricEntry)) (c : Nat) (st : ProjState),
    processCells chIdx chId row st c L =
      { updates := st.updates ++ perRowUpdatesFrom chIdx chId row c L,
        cumMetrics := (cumEntriesFrom chIdx row c L).foldl
          (fun cm e => ensureMetric cm e.1 e.2.1) st.cumMetrics,
        cumValues := (cumEntriesFrom chIdx row c L).foldl
          (fun cv e => bumpAt cv e.1 e.2.2) st.cumValues } := by
  intro L
  induction L with
  | nil => intro c st; simp [processCells, perRowUpdatesFrom, cumEntriesFrom]
  | cons hd tl ih =>
    intro c st
    obtain ⟨name, entry⟩ := hd
    rw [processCells, ih, processCell_split]
    rcases hcu : cellCumEntry chIdx row c name entry with _ | e <;>
      simp [perRowUpdatesFrom, cumEntriesFrom, hcu, List.foldl_append]

theorem processRows_filter (m : MetricsMap) (chIdx : Nat) :
    ∀ (rows : List Row) (st : ProjState),
    processRows m chIdx st rows =
      processRows m chIdx st (rows.filter (fun r => r.length = m.length)) := by
  intro rows
  induction rows with
  | nil => intro st; rfl
  | cons r rs ih =>
    intro st
    by_cases h : r.length = m.length
    · rw [processRows, if_pos h, List.filter_cons_of_pos (by simpa using h),
        processRows, if_pos h]
      cases hp : pyInt ((r[chIdx]?).getD "") <;> simp [hp, ih]
    · rw [processRows, if_neg h, List.filter_cons_of_neg (by simpa using h)]
      exact ih st

theorem processRows_clean (m : MetricsMap) (chIdx : Nat) :
    ∀ (rows : List Row) (st : ProjState),
    (∀ r ∈ rows, r.length = m.length) →
    (∀ r ∈ rows, (pyInt ((r[chIdx]?).getD "")).isSome) →
    processRows m chIdx st rows =
      ({ updates := st.updates ++
            rows.flatMap (fun r => perRowUpdatesFrom chIdx (chIdOf chIdx r) r 0 m),
         cumMetrics := (rows.flatMap (fun r => cumEntriesFrom chIdx r 0 m)).foldl
            (fun cm e => ensureMetric cm e.1 e.2.1) st.cumMetrics,
         cumValues := (rows.flatMap (fun r => cumEntriesFrom chIdx r 0 m)).foldl
            (fun cv e => bumpAt cv e.1 e.2.2) st.cumValues }, none) := by
  intro rows
  induction rows with
  | nil => intro st _ _; simp [processRows]
  | cons r rs ih =>
    intro st hw hc
    have hwr : r.length = m.length := hw r (by simp)
    have hcr : (pyInt ((r[chIdx]?).getD "")).isSome := hc r (by simp)
    rcases hp : pyInt ((r[chIdx]?).getD "") with _ | chId
    · rw [hp] at hcr; simp at hcr
    rw [processRows, if_pos hwr]
    simp only [hp]
    rw [processCells_split,
      ih _ (fun x hx => hw x (by simp [hx])) (fun x hx => hc x (by simp [hx]))]
    have hid : chIdOf chIdx r = chId := by simp [chIdOf, hp]
    simp [List.flatMap_cons, List.foldl_append, hid, List.append_assoc]

theorem do_metrics_update_clean (m : MetricsMap) (rows : List Row)
    (hhdr : "Channel ID" ∈ m.map Prod.fst)
    (hw : ∀ r ∈ rows, r.length = m.length)
    (hc : ∀ r ∈ rows, (pyInt ((r[(m.map Prod.fst).indexOf "Channel ID"]?).getD "")).isSome) :
    do_metrics_update rows m =
      (perRowUpdatesOf m ((m.map Prod.fst).indexOf "Channel ID") rows
        ++ cumUpdatesOf m ((m.map Prod.fst).indexOf "Channel ID") rows, none) := by
  rw [do_metrics_update]
  rw [if_pos hhdr]
  rw [processRows_clean m _ rows ⟨[], [], []⟩ hw hc]
  simp only [perRowUpdatesOf, cumUpdatesOf, cumMetricsOf, cumValuesOf, cumEmit]
  rfl

/-! ## Association list and tally lemmas -/

theorem alookup_bumpTally (t : List (String × Nat)) (v k : String) :
    alookup (bumpTally t v) k =
      if v = k then some (((alookup t k).getD 0) + 1) else alookup t k := by
  induction t with
  | nil =>
    by_cases h : v = k <;> simp [bumpTally, alookup, h]
  | cons p rest ih =>
    obtain ⟨pk, pn⟩ := p
    by_cases hpv : pk = v
    · subst hpv
      by_cases hk : pk = k <;> simp [bumpTally, alookup, hk, ih]
    · by_cases hk : pk = k
      · subst hk
        have : ¬ v = pk := fun h => hpv h.symm
        simp [bumpTally, alookup, hpv, this]
      · simp [bumpTally, alookup, hpv, hk, ih]

theorem alookup_isSome_mem_keys {β : Type} :
    ∀ (t : List (String × β)) (k : String),
    (alookup t k).isSome = true ↔ k ∈ t.map Prod.fst := by
  intro t
  induction t with
  | nil => intro k; simp [alookup]
  | cons p rest ih =>
    intro k
    obtain ⟨pk, pv⟩ := p
    by_cases h : pk = k
    · subst h
      simp [alookup]
    · rw [List.map_cons, alookup, if_neg h, ih]
      constructor
      · exact fun hm => List.mem_cons_of_mem _ hm
      · intro hm
        rcases List.mem_cons.mp hm with h1 | h1
        · exact absurd h1.symm h
        · exact h1

theorem bumpTally_keys (t : List (String × Nat)) (v : String) :
    (bumpTally t v).map Prod.fst =
      if (alookup t v).isSome then t.map Prod.fst else t.map Prod.fst ++ [v] := by
  induction t with
  | nil => simp [bumpTally, alookup]
  | cons p rest ih =>
    obtain ⟨pk, pn⟩ := p
    by_cases h : pk = v
    · simp [bumpTally, alookup, h]
    · have : ¬ pk = v := h
      by_cases hs : (alookup rest v).isSome <;> simp [bumpTally, alookup, this, ih, hs]

theorem bumpTally_keys_nodup (t : List (String × Nat)) (v : String)
    (h : (t.map Prod.fst).Nodup) : ((bumpTally t v).map Prod.fst).Nodup := by
  rw [bumpTally_keys]
  by_cases hs : (alookup t v).isSome
  · simpa [hs]
  · have hv : v ∉ t.map Prod.fst := by
      intro hmem
      exact hs ((alookup_isSome_mem_keys t v).mpr hmem)
    rw [Bool.not_eq_true] at hs
    rw [hs]
    simp only [Bool.false_eq_true, if_false]
    rw [List.nodup_append]
    refine ⟨h, List.nodup_singleton v, ?_⟩
    intro a ha hav
    rcases List.mem_singleton.mp hav with rfl
    exact hv ha

theorem alookup_foldl_bumpTally (k : String) :
    ∀ (vs : List String) (t : List (String × Nat)),
    alookup (vs.foldl bumpTally t) k =
      if k ∈ vs ∨ (alookup t k).isSome then
        some (((alookup t k).getD 0) + vs.count k)
      else none := by
  intro vs
  induction vs with
  | nil =>
    intro t
    by_cases hs : (alookup t k).isSome
    · rcases Option.isSome_iff_exists.mp hs with ⟨n, hn⟩
      simp [hn, List.count_nil]
    · have : alookup t k = none := Option.not_isSome_iff_eq_none.mp hs
      simp [this]
  | cons v vs ih =>
    intro t
    rw [List.foldl_cons, ih]
    by_cases hv : v = k
    · subst hv
      have hbump := alookup_bumpTally t v v
      rw [if_pos rfl] at hbump
      simp [hbump, List.count_cons, Nat.add_comm, Nat.add_assoc, Nat.add_left_comm]
    · have hbump := alookup_bumpTally t v k
      rw [if_neg hv] at hbump
      have hcnt : (v :: vs).count k = vs.count k := by
        simp [List.count_cons, hv]
      by_cases hmem : k ∈ vs ∨ (alookup t k).isSome
      · have hmem2 : k ∈ v :: vs ∨ (alookup t k).isSome := by
          rcases hmem with h | h
          · exact Or.inl (List.mem_cons_of_mem _ h)
          · exact Or.inr h
        rw [if_pos (by rwa [hbump]), if_pos hmem2, hbump, hcnt]
      · have hmem2 : ¬ (k ∈ v :: vs ∨ (alookup t k).isSome) := by
          rintro (h | h)
          · rcases List.mem_cons.mp h with h1 | h1
            · exact hv h1.symm
            · exact hmem (Or.inl h1)
          · exact hmem (Or.inr h)
        rw [if_neg (by rwa [hbump]), if_neg hmem2]

theorem foldl_bumpTally_keys_nodup :
    ∀ (vs : List String) (t : List (String × Nat)),
    (t.map Prod.fst).Nodup → (((vs.foldl bumpTally t).map Prod.fst)).Nodup := by
  intro vs
  induction vs with
  | nil => intro t h; exact h
  | cons v vs ih =>
    intro t h
    exact ih _ (bumpTally_keys_nodup t v h)

theorem alookup_eq_some_mem {β : Type} :
    ∀ (t : List (String × β)) (k : String) (b : β),
    alookup t k = some b → (k, b) ∈ t := by
  intro t
  induction t with
  | nil => intro k b h; simp [alookup] at h
  | cons p rest ih =>
    intro k b h
    obtain ⟨pk, pv⟩ := p
    by_cases hk : pk = k
    · subst hk
      rw [alookup, if_pos rfl] at h
      cases h
      simp
    · rw [alookup, if_neg hk] at h
      exact List.mem_cons_of_mem _ (ih k b h)

theorem mem_alookup_of_nodup {β : Type} :
    ∀ (t : List (String × β)) (k : String) (b : β),
    (t.map Prod.fst).Nodup → (k, b) ∈ t → alookup t k = some b := by
  intro t
  induction t with
  | nil => intro k b _ h; simp at h
  | cons p rest ih =>
    intro k b hnd h
    obtain ⟨pk, pv⟩ := p
    rcases List.mem_cons.mp h with h1 | h1
    · cases h1
      simp [alookup]
    · rw [List.map_cons] at hnd
      rcases List.nodup_cons.mp hnd with ⟨hnot, hrest⟩
      have hk : pk ≠ k := by
        intro he
        subst he
        exact hnot (List.mem_map.mpr ⟨(pk, b), h1, rfl⟩)
      rw [alookup, if_neg hk]
      exact ih k b hrest h1

theorem alookup_bumpAt :
    ∀ (cv : List (String × List (String × Nat))) (n' v n : String),
    alookup (bumpAt cv n' v) n =
      if n' = n then some (bumpTally ((alookup cv n).getD []) v) else alookup cv n := by
  intro cv
  induction cv with
  | nil =>
    intro n' v n
    by_cases h : n' = n <;> simp [bumpAt, alookup, h]
  | cons p rest ih =>
    obtain ⟨pk, pt⟩ := p
    intro n' v n
    by_cases h1 : pk = n'
    · subst h1
      by_cases h2 : pk = n
      · subst h2
        simp [bumpAt, alookup]
      · simp [bumpAt, alookup, h2]
    · by_cases h2 : pk = n
      · subst h2
        have h3 : ¬ n' = pk := fun he => h1 he.symm
        simp [bumpAt, alookup, h1, h3]
      · simp [bumpAt, alookup, h1, h2, ih]

/-- Extending an optional tally with a list of new values. -/
def tallyExtend (t0 : Option (List (String × Nat))) (vs : List String) :
    Option (List (String × Nat)) :=
  match t0, vs with
  | none, [] => none
  | t0, vs => some (vs.foldl bumpTally (t0.getD []))

theorem tallyExtend_some (t : List (String × Nat)) (vs : List String) :
    tallyExtend (some t) vs = some (vs.foldl bumpTally t) := by
  cases vs <;> rfl

theorem alookup_foldl_bumpAt (n : String) :
    ∀ (entries : List (String × MetricRef × String)) (cv : List (String × List (String × Nat))),
    alookup (entries.foldl (fun cv e => bumpAt cv e.1 e.2.2) cv) n =
      tallyExtend (alookup cv n)
        (entries.filterMap (fun e => if e.1 = n then some e.2.2 else none)) := by
  intro entries
  induction entries with
  | nil =>
    intro cv
    rcases h : alookup cv n with _ | t
    · simp [h, tallyExtend]
    · simp [h, tallyExtend_some]
  | cons e rest ih =>
    intro cv
    rw [List.foldl_cons, ih]
    by_cases he : e.1 = n
    · have hb := alookup_bumpAt cv e.1 e.2.2 n
      rw [if_pos he] at hb
      rw [hb, tallyExtend_some]
      rcases h0 : alookup cv n with _ | t0
      · simp [List.filterMap_cons, he, tallyExtend, h0]
      · simp [List.filterMap_cons, he, tallyExtend_some, h0]
    · have hb := alookup_bumpAt cv e.1 e.2.2 n
      rw [if_neg he] at hb
      rw [hb]
      simp [List.filterMap_cons, he]

theorem alookup_ensureMetric :
    ∀ (cm : List (String × MetricRef)) (n' : String) (met : MetricRef) (n : String),
    alookup (ensureMetric cm n' met) n =
      if n' = n then some ((alookup cm n).getD met) else alookup cm n := by
  intro cm
  induction cm with
  | nil =>
    intro n' met n
    by_cases h : n' = n <;> simp [ensureMetric, alookup, h]
  | cons p rest ih =>
    obtain ⟨pk, m0⟩ := p
    intro n' met n
    by_cases h1 : pk = n'
    · subst h1
      by_cases h2 : pk = n
      · subst h2
        simp [ensureMetric, alookup]
      · simp [ensureMetric, alookup, h2]
    · by_cases h2 : pk = n
      · subst h2
        have h3 : ¬ n' = pk := fun he => h1 he.symm
        simp [ensureMetric, alookup, h1, h3]
      · simp [ensureMetric, alookup, h1, h2, ih]

theorem or_some_getD {α : Type} (o : Option α) (x : α) :
    o.or (some x) = some (o.getD x) := by
  cases o <;> rfl

theorem alookup_foldl_ensure (n : String) :
    ∀ (entries : List (String × MetricRef × String)) (cm : List (String × MetricRef)),
    alookup (entries.foldl (fun cm e => ensureMetric cm e.1 e.2.1) cm) n =
      (alookup cm n).or
        ((entries.filterMap (fun e => if e.1 = n then some e.2.1 else none)).head?) := by
  intro entries
  induction entries with
  | nil =>
    intro cm
    simp
  | cons e rest ih =>
    intro cm
    rw [List.foldl_cons, ih]
    by_cases he : e.1 = n
    · have hb := alookup_ensureMetric cm e.1 e.2.1 n
      rw [if_pos he] at hb
      rw [hb]
      simp only [List.filterMap_cons, he, if_pos]
      rw [List.head?_cons]
      rcases h0 : alookup cm n with _ | m0
      · simp [Option.or]
      · simp [Option.or]
    · have hb := alookup_ensureMetric cm e.1 e.2.1 n
      rw [if_neg he] at hb
      rw [hb]
      simp [List.filterMap_cons, he]

theorem mem_ensureMetric :
    ∀ (cm : List (String × MetricRef)) (n : String) (met : MetricRef) (q : String × MetricRef),
    q ∈ ensureMetric cm n met → q ∈ cm ∨ q = (n, met) := by
  intro cm
  induction cm with
  | nil =>
    intro n met q h
    simp [ensureMetric] at h
    exact Or.inr h
  | cons p rest ih =>
    obtain ⟨pk, m0⟩ := p
    intro n met q h
    by_cases h1 : pk = n
    · rw [ensureMetric, if_pos h1] at h
      exact Or.inl h
    · rw [ensureMetric, if_neg h1] at h
      rcases List.mem_cons.mp h with h2 | h2
      · exact Or.inl (by simp [h2])
      · rcases ih n met q h2 with h3 | h3
        · exact Or.inl (List.mem_cons_of_mem _ h3)
        · exact Or.inr h3

theorem mem_foldl_ensure :
    ∀ (entries : List (String × MetricRef × String)) (cm : List (String × MetricRef))
      (q : String × MetricRef),
    q ∈ entries.foldl (fun cm e => ensureMetric cm e.1 e.2.1) cm →
      q ∈ cm ∨ ∃ e ∈ entries, q.1 = e.1 ∧ q.2 = e.2.1 := by
  intro entries
  induction entries with
  | nil =>
    intro cm q h
    exact Or.inl h
  | cons e rest ih =>
    intro cm q h
    rw [List.foldl_cons] at h
    rcases ih _ q h with h1 | h1
    · rcases mem_ensureMetric cm e.1 e.2.1 q h1 with h2 | h2
      · exact Or.inl h2
      · exact Or.inr ⟨e, by simp, by simp [h2]⟩
    · rcases h1 with ⟨e', he', hq⟩
      exact Or.inr ⟨e', List.mem_cons_of_mem _ he', hq⟩

/-! ## Provenance of projection outputs -/

/-- The metric name attached to a schema column, if any. -/
def metricNameOf (e : Option MetricEntry) : Option String :=
  (e.bind MetricEntry.metric).map MetricRef.name

/-- Names of the metrics of all columns other than the channel id
column, with the running column index. -/
def nonChMetricNamesFrom (chIdx : Nat) :
    Nat → List (String × Option MetricEntry) → List String
  | _, [] => []
  | c, col :: rest =>
    (if c = chIdx then [] else (metricNameOf col.2).toList)
      ++ nonChMetricNamesFrom chIdx (c + 1) rest

def nonChMetricNames (m : MetricsMap) (chIdx : Nat) : List String :=
  nonChMetricNamesFrom chIdx 0 m

theorem cellCumEntry_some {chIdx : Nat} {row : Row} {colIdx : Nat} {name : String}
    {entry : Option MetricEntry} {e : String × MetricRef × String}
    (h : cellCumEntry chIdx row colIdx name entry = some e) :
    e.1 = name ∧ ¬ colIdx = chIdx ∧
      ∃ ent, entry = some ent ∧ ent.metric = some e.2.1 ∧ ent.flags.isSome = true ∧
        e.2.2 = firstToken ((row[colIdx]?).getD "") := by
  rcases entry with _ | ent
  · simp [cellCumEntry] at h
  rcases hmet : ent.metric with _ | met
  · simp [cellCumEntry, hmet] at h
  by_cases hci : colIdx = chIdx
  · simp [cellCumEntry, hmet, hci] at h
  by_cases hf : ent.flags.isSome
  · rw [cellCumEntry] at h
    simp only [hmet, if_neg hci, hf, if_true] at h
    cases h
    exact ⟨rfl, hci, ent, rfl, hmet, hf, rfl⟩
  · rw [cellCumEntry] at h
    simp only [hmet, if_neg hci] at h
    rw [Bool.not_eq_true] at hf
    simp [hf] at h

theorem cellPerRowUpdate_some {chIdx : Nat} {chId : Int} {row : Row} {colIdx : Nat}
    {name : String} {entry : Option MetricEntry} {u : Update}
    (h : cellPerRowUpdate chIdx chId row colIdx name entry = some u) :
    ¬ colIdx = chIdx ∧ u.isCumset = false ∧
      ∃ ent met, entry = some ent ∧ ent.metric = some met ∧ u.metricName = met.name := by
  rcases entry with _ | ent
  · simp [cellPerRowUpdate] at h
  rcases hmet : ent.metric with _ | met
  · simp [cellPerRowUpdate, hmet] at h
  by_cases hci : colIdx = chIdx
  · simp [cellPerRowUpdate, hmet, hci] at h
  by_cases hf : ent.flags.isSome
  · simp [cellPerRowUpdate, hmet, hci, hf] at h
  rw [Bool.not_eq_true] at hf
  rw [cellPerRowUpdate] at h
  simp only [hmet, if_neg hci, hf, Bool.false_eq_true, if_false] at h
  cases hk : met.kind <;> rw [hk] at h
  · rcases hq : pyFloat (firstToken ((row[colIdx]?).getD "")) with _ | q <;> rw [hq] at h
    · simp at h
    · simp only [Option.map_some] at h
      cases h
      exact ⟨hci, rfl, ent, met, rfl, hmet, rfl⟩
  · rcases hq : pyFloat (firstToken ((row[colIdx]?).getD "")) with _ | q <;> rw [hq] at h
    · simp at h
    · simp only [Option.map_some] at h
      cases h
      exact ⟨hci, rfl, ent, met, rfl, hmet, rfl⟩
  · cases h
    exact ⟨hci, rfl, ent, met, rfl, hmet, rfl⟩

theorem mem_perRowUpdatesFrom_name {chIdx : Nat} {chId : Int} {row : Row} {u : Update} :
    ∀ (L : List (String × Option MetricEntry)) (c : Nat),
    u ∈ perRowUpdatesFrom chIdx chId row c L →
      u.metricName ∈ nonChMetricNamesFrom chIdx c L ∧ u.isCumset = false := by
  intro L
  induction L with
  | nil =>
    intro c h
    simp [perRowUpdatesFrom] at h
  | cons col rest ih =>
    intro c h
    obtain ⟨name, entry⟩ := col
    rw [perRowUpdatesFrom] at h
    rcases List.mem_append.mp h with h1 | h1
    · rcases hcell : cellPerRowUpdate chIdx chId row c name entry with _ | u0
      · rw [hcell] at h1; simp at h1
      · rw [hcell] at h1
        simp only [Option.toList_some, List.mem_singleton] at h1
        subst h1
        rcases cellPerRowUpdate_some hcell with ⟨hci, hcs, ent, met, hent, hmet, hname⟩
        refine ⟨?_, hcs⟩
        rw [nonChMetricNamesFrom]
        apply List.mem_append.mpr
        left
        rw [if_neg hci]
        simp [metricNameOf, hent, hmet, hname]
    · rcases ih (c + 1) h1 with ⟨hn, hcs⟩
      refine ⟨?_, hcs⟩
      rw [nonChMetricNamesFrom]
      exact List.mem_append.mpr (Or.inr hn)

theorem mem_cumEntriesFrom_name {chIdx : Nat} {row : Row} {e : String × MetricRef × String} :
    ∀ (L : List (String × Option MetricEntry)) (c : Nat),
    e ∈ cumEntriesFrom chIdx row c L →
      e.2.1.name ∈ nonChMetricNamesFrom chIdx c L := by
  intro L
  induction L with
  | nil =>
    intro c h
    simp [cumEntriesFrom] at h
  | cons col rest ih =>
    intro c h
    obtain ⟨name, entry⟩ := col
    rw [cumEntriesFrom] at h
    rcases List.mem_append.mp h with h1 | h1
    · rcases hcell : cellCumEntry chIdx row c name entry with _ | e0
      · rw [hcell] at h1; simp at h1
      · rw [hcell] at h1
        simp only [Option.toList_some, List.mem_singleton] at h1
        subst h1
        rcases cellCumEntry_some hcell with ⟨hn, hci, ent, hent, hmet, hf, hv⟩
        rw [nonChMetricNamesFrom]
        apply List.mem_append.mpr
        left
        rw [if_neg hci]
        simp [metricNameOf, hent, hmet]
    · rw [nonChMetricNamesFrom]
      exact List.mem_append.mpr (Or.inr (ih (c + 1) h1))

theorem processRows_inv (m : MetricsMap) (chIdx : Nat) :
    ∀ (rows : List Row) (st : ProjState),
    (∀ u ∈ st.updates, u.metricName ∈ nonChMetricNames m chIdx) →
    (∀ p ∈ st.cumMetrics, p.2.name ∈ nonChMetricNames m chIdx) →
    (∀ u ∈ (processRows m chIdx st rows).1.updates,
        u.metricName ∈ nonChMetricNames m chIdx) ∧
    (∀ p ∈ (processRows m chIdx st rows).1.cumMetrics,
        p.2.name ∈ nonChMetricNames m chIdx) := by
  intro rows
  induction rows with
  | nil =>
    intro st h1 h2
    exact ⟨h1, h2⟩
  | cons r rs ih =>
    intro st h1 h2
    by_cases hw : r.length = m.length
    · rw [processRows, if_pos hw]
      rcases hp : pyInt ((r[chIdx]?).getD "") with _ | chId
      · exact ⟨h1, h2⟩
      · apply ih
        · intro u hu
          rw [processCells_split] at hu
          rcases List.mem_append.mp hu with h | h
          · exact h1 u h
          · exact (mem_perRowUpdatesFrom_name m 0 h).1
        · intro p hp2
          rw [processCells_split] at hp2
          rcases mem_foldl_ensure _ _ _ hp2 with h | h
          · exact h2 p h
          · rcases h with ⟨e, he, hfst, hsnd⟩
            rw [hsnd]
            exact mem_cumEntriesFrom_name m 0 he
    · rw [processRows, if_neg hw]
      exact ih st h1 h2

theorem do_metrics_update_names (m : MetricsMap) (rows : List Row) :
    ∀ u ∈ (do_metrics_update rows m).1,
      u.metricName ∈ nonChMetricNames m ((m.map Prod.fst).indexOf "Channel ID") := by
  intro u hu
  rw [do_metrics_update] at hu
  by_cases hhdr : "Channel ID" ∈ m.map Prod.fst
  · rw [if_pos hhdr] at hu
    have hinv := processRows_inv m ((m.map Prod.fst).indexOf "Channel ID") rows
      ⟨[], [], []⟩ (by intro u h; simp at h) (by intro p h; simp at h)
    rcases hres : processRows m ((m.map Prod.fst).indexOf "Channel ID") ⟨[], [], []⟩ rows
      with ⟨st, err⟩
    rw [hres] at hinv hu
    rcases err with _ | e
    · simp only at hu
      rcases List.mem_append.mp hu with h | h
      · exact hinv.1 u h
      · rw [cumEmit] at h
        rcases List.mem_flatMap.mp h with ⟨p, hp, hmem⟩
        rcases List.mem_map.mp hmem with ⟨vc, _, hvc⟩
        rw [← hvc]
        exact hinv.2 p hp
    · simp only at hu
      exact hinv.1 u hu
  · rw [if_neg hhdr] at hu
    simp at hu

/-! ## Invariance under rewriting of the channel id cell -/

theorem cellPerRowUpdate_set (chIdx : Nat) (chId : Int) (row : Row) (a : String)
    (colIdx : Nat) (name : String) (entry : Option MetricEntry) :
    cellPerRowUpdate chIdx chId (row.set chIdx a) colIdx name entry =
      cellPerRowUpdate chIdx chId row colIdx name entry := by
  rcases entry with _ | ent
  · rfl
  rcases hmet : ent.metric with _ | met
  · simp [cellPerRowUpdate, hmet]
  by_cases hci : colIdx = chIdx
  · simp [cellPerRowUpdate, hmet, hci]
  · have hne : chIdx ≠ colIdx := fun h => hci h.symm
    simp [cellPerRowUpdate, hmet, hci, List.getElem?_set_ne hne]

theorem cellCumEntry_set (chIdx : Nat) (row : Row) (a : String)
    (colIdx : Nat) (name : String) (entry : Option MetricEntry) :
    cellCumEntry chIdx (row.set chIdx a) colIdx name entry =
      cellCumEntry chIdx row colIdx name entry := by
  rcases entry with _ | ent
  · rfl
  rcases hmet : ent.metric with _ | met
  · simp [cellCumEntry, hmet]
  by_cases hci : colIdx = chIdx
  · simp [cellCumEntry, hmet, hci]
  · have hne : chIdx ≠ colIdx := fun h => hci h.symm
    simp [cellCumEntry, hmet, hci, List.getElem?_set_ne hne]

theorem perRowUpdatesFrom_set (chIdx : Nat) (chId : Int) (row : Row) (a : String) :
    ∀ (L : List (String × Option MetricEntry)) (c : Nat),
    perRowUpdatesFrom chIdx chId (row.set chIdx a) c L =
      perRowUpdatesFrom chIdx chId row c L := by
  intro L
  induction L with
  | nil => intro c; rfl
  | cons col rest ih =>
    intro c
    obtain ⟨name, entry⟩ := col
    rw [perRowUpdatesFrom, perRowUpdatesFrom, ih, cellPerRowUpdate_set]

theorem cumEntriesFrom_set (chIdx : Nat) (row : Row) (a : String) :
    ∀ (L : List (String × Option MetricEntry)) (c : Nat),
    cumEntriesFrom chIdx (row.set chIdx a) c L = cumEntriesFrom chIdx row c L := by
  intro L
  induction L with
  | nil => intro c; rfl
  | cons col rest ih =>
    intro c
    obtain ⟨name, entry⟩ := col
    rw [cumEntriesFrom, cumEntriesFrom, ih, cellCumEntry_set]

theorem processCells_set (m : MetricsMap) (chIdx : Nat) (chId : Int) (row : Row)
    (a : String) (st : ProjState) :
    processCells chIdx chId (row.set chIdx a) st 0 m = processCells chIdx chId row st 0 m := by
  rw [processCells_split, processCells_split, perRowUpdatesFrom_set, cumEntriesFrom_set]

theorem processRows_set (m : MetricsMap) (chIdx : Nat) (row : Row) (post : List Row)
    (a b : String) (hab : pyInt a = pyInt b) :
    ∀ (pre : List Row) (st : ProjState),
    processRows m chIdx st (pre ++ (row.set chIdx a) :: post) =
      processRows m chIdx st (pre ++ (row.set chIdx b) :: post) := by
  intro pre
  induction pre with
  | nil =>
    intro st
    simp only [List.nil_append]
    by_cases hlen : chIdx < row.length
    · have hwa : (row.set chIdx a).length = row.length := List.length_set row chIdx a
      have hwb : (row.set chIdx b).length = row.length := List.length_set row chIdx b
      have hga : ((row.set chIdx a)[chIdx]?).getD "" = a := by
        rw [List.getElem?_set_self hlen]
        rfl
      have hgb : ((row.set chIdx b)[chIdx]?).getD "" = b := by
        rw [List.getElem?_set_self hlen]
        rfl
      by_cases hw : row.length = m.length
      · rw [processRows, processRows, if_pos (by rw [hwa, hw]), if_pos (by rw [hwb, hw])]
        rw [hga, hgb, hab]
        rcases pyInt b with _ | chId
        · rfl
        · simp only []
          rw [processCells_set, processCells_set]
      · rw [processRows, processRows, if_neg (by rw [hwa]; exact hw), if_neg (by rw [hwb]; exact hw)]
    · have hle : row.length ≤ chIdx := Nat.le_of_not_lt hlen
      rw [List.set_eq_of_length_le hle, List.set_eq_of_length_le hle]
  | cons r pre ih =>
    intro st
    simp only [List.cons_append]
    rw [processRows, processRows]
    by_cases hw : r.length = m.length
    · rw [if_pos hw, if_pos hw]
      rcases pyInt ((r[chIdx]?).getD "") with _ | chId
      · rfl
      · simp only []
        rw [ih]
    · rw [if_neg hw, if_neg hw]
      rw [ih]

theorem do_metrics_update_set (m : MetricsMap) (row : Row) (pre post : List Row)
    (a b : String) (hab : pyInt a = pyInt b) :
    do_metrics_update (pre ++ (row.set ((m.map Prod.fst).indexOf "Channel ID") a) :: post) m =
      do_metrics_update (pre ++ (row.set ((m.map Prod.fst).indexOf "Channel ID") b) :: post) m := by
  rw [do_metrics_update, do_metrics_update]
  by_cases hhdr : "Channel ID" ∈ m.map Prod.fst
  · rw [if_pos hhdr, if_pos hhdr,
      processRows_set m ((m.map Prod.fst).indexOf "Channel ID") row post a b hab]
  · rw [if_neg hhdr, if_neg hhdr]

/-! ## Locating one cumulative column inside the schema -/

theorem cumEntriesFrom_append (chIdx : Nat) (row : Row) :
    ∀ (A B : List (String × Option MetricEntry)) (c : Nat),
    cumEntriesFrom chIdx row c (A ++ B) =
      cumEntriesFrom chIdx row c A ++ cumEntriesFrom chIdx row (c + A.length) B := by
  intro A
  induction A with
  | nil =>
    intro B c
    simp [cumEntriesFrom]
  | cons col rest ih =>
    intro B c
    obtain ⟨name, entry⟩ := col
    rw [List.cons_append, cumEntriesFrom, cumEntriesFrom, ih, List.append_assoc]
    have : c + 1 + rest.length = c + (rest.length + 1) := by omega
    simp [this]

theorem mem_cumEntriesFrom_col {chIdx : Nat} {row : Row} {e : String × MetricRef × String} :
    ∀ (L : List (String × Option MetricEntry)) (c : Nat),
    e ∈ cumEntriesFrom chIdx row c L →
      ∃ col ∈ L, e.1 = col.1 ∧ ∃ ent, col.2 = some ent ∧ ent.metric = some e.2.1 := by
  intro L
  induction L with
  | nil =>
    intro c h
    simp [cumEntriesFrom] at h
  | cons col rest ih =>
    intro c h
    obtain ⟨name, entry⟩ := col
    rw [cumEntriesFrom] at h
    rcases List.mem_append.mp h with h1 | h1
    · rcases hcell : cellCumEntry chIdx row c name entry with _ | e0
      · rw [hcell] at h1; simp at h1
      · rw [hcell] at h1
        simp only [Option.toList_some, List.mem_singleton] at h1
        subst h1
        rcases cellCumEntry_some hcell with ⟨hn, _, ent, hent, hmet, _, _⟩
        exact ⟨(name, entry), by simp, by simpa using hn, ent, hent, hmet⟩
    · rcases ih (c + 1) h1 with ⟨col', hcol', he1, hrest⟩
      exact ⟨col', List.mem_cons_of_mem _ hcol', he1, hrest⟩

theorem cumEntriesFrom_sel_nil {α : Type} (chIdx : Nat) (row : Row) (nm : String)
    (g : String × MetricRef × String → α) :
    ∀ (L : List (String × Option MetricEntry)) (c : Nat),
    (∀ col ∈ L, col.1 ≠ nm) →
    (cumEntriesFrom chIdx row c L).filterMap
      (fun e => if e.1 = nm then some (g e) else none) = [] := by
  intro L
  induction L with
  | nil => intro c _; rfl
  | cons col rest ih =>
    intro c hnames
    obtain ⟨name, entry⟩ := col
    rw [cumEntriesFrom, List.filterMap_append]
    rw [ih (c + 1) (fun x hx => hnames x (List.mem_cons_of_mem _ hx))]
    rw [List.append_nil]
    rcases hcell : cellCumEntry chIdx row c name entry with _ | e0
    · rfl
    · rcases cellCumEntry_some hcell with ⟨hn, _, _, _, _, _, _⟩
      have hname : name ≠ nm := hnames (name, entry) (by simp)
      simp [List.filterMap_cons, hn, hname]

/-- The single contribution of a flagged column located at position
m1.length in the schema, for one row. -/
theorem cumEntriesFrom_sel_single {α : Type} (chIdx : Nat) (row : Row)
    (m1 m2 : List (String × Option MetricEntry)) (nm : String) (met : MetricRef)
    (flag : String) (g : String × MetricRef × String → α)
    (h1 : ∀ col ∈ m1, col.1 ≠ nm) (h2 : ∀ col ∈ m2, col.1 ≠ nm)
    (hne : m1.length ≠ chIdx) :
    (cumEntriesFrom chIdx row 0 (m1 ++ (nm, some ⟨some met, some flag⟩) :: m2)).filterMap
      (fun e => if e.1 = nm then some (g e) else none) =
      [g (nm, met, firstToken ((row[m1.length]?).getD ""))] := by
  rw [cumEntriesFrom_append, List.filterMap_append]
  rw [cumEntriesFrom_sel_nil chIdx row nm g m1 0 h1, List.nil_append]
  rw [cumEntriesFrom]
  have hcell : cellCumEntry chIdx row (0 + m1.length) nm (some ⟨some met, some flag⟩) =
      some (nm, met, firstToken ((row[0 + m1.length]?).getD "")) := by
    rw [cellCumEntry]
    simp only [Nat.zero_add]
    rw [if_neg hne]
    simp
  rw [hcell, List.filterMap_append]
  rw [cumEntriesFrom_sel_nil chIdx row nm g m2 (0 + m1.length + 1) h2, List.append_nil]
  simp [List.filterMap_cons, Nat.zero_add]

theorem filterMap_flatMap {α β γ : Type} (f : β → Option γ) (g : α → List β) :
    ∀ (l : List α), (l.flatMap g).filterMap f = l.flatMap (fun a => (g a).filterMap f) := by
  intro l
  induction l with
  | nil => rfl
  | cons x xs ih => simp [List.flatMap_cons, List.filterMap_append, ih]

theorem flatMap_singleton_map {α β : Type} (f : α → β) :
    ∀ (l : List α), (l.flatMap (fun a => [f a])) = l.map f := by
  intro l
  induction l with
  | nil => rfl
  | cons x xs ih => simp [List.flatMap_cons, ih]

theorem regLookup_regSet_self :
    ∀ (r : Registry) (k : String × String) (v : PyVal),
    regLookup (regSet r k v) k = some v := by
  intro r
  induction r with
  | nil =>
    intro k v
    simp [regSet, regLookup]
  | cons p rest ih =>
    intro k v
    obtain ⟨pk, pv⟩ := p
    by_cases h : pk = k
    · rw [regSet, if_pos h, regLookup, if_pos h]
    · rw [regSet, if_neg h, regLookup, if_neg h]
      exact ih k v

theorem mem_perRowUpdatesOf_not_cumset {m : MetricsMap} {chIdx : Nat} {rows : List Row}
    {u : Update} (h : u ∈ perRowUpdatesOf m chIdx rows) : u.isCumset = false := by
  rcases List.mem_flatMap.mp h with ⟨r, _, hu⟩
  exact (mem_perRowUpdatesFrom_name m 0 hu).2

theorem tallyExtend_none_cons (v : String) (vs : List String) :
    tallyExtend none (v :: vs) = some ((v :: vs).foldl bumpTally []) := rfl

/-- Full characterisation of the cumulative updates of one flagged
column: one cumset per distinct tallied value, valued by its count. -/
theorem cumUpdatesOf_char (chIdx : Nat) (m1 m2 : List (String × Option MetricEntry))
    (nm : String) (met : MetricRef) (flag : String) (rows : List Row)
    (hne : m1.length ≠ chIdx)
    (h1 : ∀ col ∈ m1, col.1 ≠ nm) (h2 : ∀ col ∈ m2, col.1 ≠ nm)
    (hun : ∀ col ∈ m1 ++ m2, metricNameOf col.2 ≠ some met.name)
    (v : String) (q : PyVal) :
    Update.cumset met.name v q ∈
        cumUpdatesOf (m1 ++ (nm, some ⟨some met, some flag⟩) :: m2) chIdx rows ↔
      (v ∈ rows.map (fun r => firstToken ((r[m1.length]?).getD "")) ∧
        q = PyVal.ofNat ((rows.map (fun r => firstToken ((r[m1.length]?).getD ""))).count v)) := by
  have hKV : (rows.flatMap (fun r =>
        cumEntriesFrom chIdx r 0 (m1 ++ (nm, some ⟨some met, some flag⟩) :: m2))).filterMap
      (fun e => if e.1 = nm then some e.2.2 else none) =
      rows.map (fun r => firstToken ((r[m1.length]?).getD "")) := by
    rw [filterMap_flatMap]
    have hrow : ∀ r : Row,
        (cumEntriesFrom chIdx r 0 (m1 ++ (nm, some ⟨some met, some flag⟩) :: m2)).filterMap
          (fun e => if e.1 = nm then some e.2.2 else none) =
          [firstToken ((r[m1.length]?).getD "")] := fun r =>
      cumEntriesFrom_sel_single chIdx r m1 m2 nm met flag _ h1 h2 hne
    simp only [hrow]
    exact flatMap_singleton_map _ rows
  have hKM : (rows.flatMap (fun r =>
        cumEntriesFrom chIdx r 0 (m1 ++ (nm, some ⟨some met, some flag⟩) :: m2))).filterMap
      (fun e => if e.1 = nm then some e.2.1 else none) = rows.map (fun _ => met) := by
    rw [filterMap_flatMap]
    have hrow : ∀ r : Row,
        (cumEntriesFrom chIdx r 0 (m1 ++ (nm, some ⟨some met, some flag⟩) :: m2)).filterMap
          (fun e => if e.1 = nm then some e.2.1 else none) = [met] := fun r =>
      cumEntriesFrom_sel_single chIdx r m1 m2 nm met flag _ h1 h2 hne
    simp only [hrow]
    exact flatMap_singleton_map _ rows
  have hCV : alookup (cumValuesOf (m1 ++ (nm, some ⟨some met, some flag⟩) :: m2) chIdx rows) nm =
      tallyExtend none (rows.map (fun r => firstToken ((r[m1.length]?).getD ""))) := by
    rw [cumValuesOf, alookup_foldl_bumpAt, hKV]
    rfl
  have hCM : alookup (cumMetricsOf (m1 ++ (nm, some ⟨some met, some flag⟩) :: m2) chIdx rows) nm =
      (rows.map (fun _ => met)).head? := by
    rw [cumMetricsOf, alookup_foldl_ensure, hKM]
    rfl
  constructor
  · intro hu
    rw [cumUpdatesOf] at hu
    rcases List.mem_flatMap.mp hu with ⟨p, hp, hmem⟩
    rcases List.mem_map.mp hmem with ⟨vc, hvc, heq⟩
    simp only [Update.cumset.injEq] at heq
    rcases heq with ⟨hpname, hv1, hq⟩
    rcases mem_foldl_ensure _ _ _ hp with hfalse | ⟨e, he, hp1, hp2⟩
    · simp at hfalse
    rcases List.mem_flatMap.mp he with ⟨r, hr, hecol⟩
    rcases mem_cumEntriesFrom_col _ 0 hecol with ⟨col, hcolmem, he1, ent, hent, hmetent⟩
    have hename : e.2.1.name = met.name := by
      rw [← hp2]
      exact hpname
    have hcolname : metricNameOf col.2 = some met.name := by
      simp [metricNameOf, hent, hmetent, hename]
    have hcol : col = (nm, some (⟨some met, some flag⟩ : MetricEntry)) := by
      rcases List.mem_append.mp hcolmem with hm | hm
      · exact absurd hcolname (hun col (List.mem_append_left _ hm))
      · rcases List.mem_cons.mp hm with hc | hc
        · exact hc
        · exact absurd hcolname (hun col (List.mem_append_right _ hc))
    have he1' : e.1 = nm := by rw [he1, hcol]
    rw [he1'] at hp1
    rw [hp1, hCV] at hvc
    rcases hrows : rows.map (fun r => firstToken ((r[m1.length]?).getD "")) with _ | ⟨v0, vtl⟩
    · rw [hrows] at hvc
      simp [tallyExtend] at hvc
    · rw [hrows] at hvc
      rw [tallyExtend_none_cons] at hvc
      simp only [Option.getD_some] at hvc
      have hnd : (((v0 :: vtl).foldl bumpTally []).map Prod.fst).Nodup :=
        foldl_bumpTally_keys_nodup (v0 :: vtl) [] (by simp)
      have hlook := mem_alookup_of_nodup _ vc.1 vc.2 hnd (by simpa using hvc)
      rw [alookup_foldl_bumpTally] at hlook
      by_cases hin : vc.1 ∈ v0 :: vtl
      · rw [if_pos (Or.inl hin)] at hlook
        simp only [alookup, Option.getD_none, Nat.zero_add, Option.some.injEq] at hlook
        constructor
        · rw [← hv1]
          exact hin
        · rw [← hq, ← hv1, hlook]
      · rw [if_neg (by simp [hin, alookup])] at hlook
        cases hlook
  · rintro ⟨hvin, hq⟩
    rcases List.mem_map.mp hvin with ⟨r0, hr0, _⟩
    have hrowsne : rows ≠ [] := List.ne_nil_of_mem hr0
    rcases hrowseq : rows with _ | ⟨ra, rtl⟩
    · exact absurd hrowseq hrowsne
    rw [← hrowseq]
    have hvalsne : ∃ va vs, rows.map (fun r => firstToken ((r[m1.length]?).getD "")) = va :: vs := by
      rw [hrowseq]
      exact ⟨_, _, rfl⟩
    rcases hvalsne with ⟨va, vs, hvals⟩
    have hheadmet : (rows.map (fun _ : Row => met)).head? = some met := by
      rw [hrowseq]
      rfl
    have hmetmem : (nm, met) ∈
        cumMetricsOf (m1 ++ (nm, some ⟨some met, some flag⟩) :: m2) chIdx rows :=
      alookup_eq_some_mem _ nm met (by rw [hCM, hheadmet])
    have htallylook : alookup ((va :: vs).foldl bumpTally []) v =
        some ((va :: vs).count v) := by
      rw [alookup_foldl_bumpTally]
      rw [if_pos (Or.inl (by rw [← hvals]; exact hvin))]
      simp [alookup]
    have htallymem : (v, (va :: vs).count v) ∈ (va :: vs).foldl bumpTally [] :=
      alookup_eq_some_mem _ v _ htallylook
    rw [cumUpdatesOf]
    apply List.mem_flatMap.mpr
    refine ⟨(nm, met), hmetmem, ?_⟩
    apply List.mem_map.mpr
    refine ⟨(v, (va :: vs).count v), ?_, ?_⟩
    · rw [hCV, hvals, tallyExtend_none_cons]
      simpa using htallymem
    · simp only []
      rw [hq, hvals]

/-! ## Claim theorems -/

/-- C1: evaluating the poll loop body at the two inputs of the claim.
A 401 at login raises ModemNotOkError, which main.py catches with
break: the loop stops, as the claim states.  But an HTTP 500 on the
connection-status data fetch raises the same ModemNotOkError and is
caught by the same break: the loop ALSO stops, instead of proceeding
to the next sleep/retry cycle as the claim (and the comment in main.py
lines 120-124, which says to wait until the next cycle) requires. -/
theorem C1_non200_eval :
    (main_loop_cycle 60 5 ⟨none, 0⟩
        ⟨true, 401, "abc123", true, 200, 200, some "Status", some "Status", true⟩).1 =
      CycleResult.stopped ∧
    (main_loop_cycle 60 5 ⟨none, 0⟩
        ⟨true, 200, "abc123", true, 500, 200, some "Status", some "Status", true⟩).1 =
      CycleResult.stopped ∧
    (main_loop_cycle 60 5 ⟨none, 0⟩
        ⟨true, 200, "abc123", true, 500, 200, some "Status", some "Status", true⟩).1 ≠
      CycleResult.sleepThenContinue 60 :=
  ⟨by decide, by decide, by decide⟩

/-- C4 (amended): for every document that has a title element,
is_login_page returns ok true exactly when the stripped title text is
the string Login; but for a document with no title element the call
raises AttributeError (soup.find returns None) instead of returning
false as the claim states. -/
theorem C4_is_login_page_iff :
    (∀ t : String, is_login_page ⟨some t⟩ = .ok true ↔ pyStrip t = "Login") ∧
    is_login_page ⟨none⟩ = .error "AttributeError" := by
  constructor
  · intro t
    rw [is_login_page]
    constructor
    · intro h
      simp only [Except.ok.injEq] at h
      exact eq_of_beq h
    · intro h
      show Except.ok (pyStrip t == "Login") = Except.ok true
      rw [h]
      rfl
  · rfl

/-- C4 counterexample: a document with no title element does not
return false; it raises (AttributeError), refuting the claim that
every document with a missing title yields false without crashing.
The third conjunct also records that a padded title " Login " is
accepted because the code strips it first. -/
theorem C4_counterexample :
    is_login_page ⟨none⟩ = .error "AttributeError" ∧
    (∀ b : Bool, is_login_page ⟨none⟩ ≠ .ok b) ∧
    is_login_page ⟨some " Login "⟩ = .ok true := by
  refine ⟨rfl, ?_, by decide⟩
  intro b h
  exact Except.noConfusion h

/-- C4 witness: the iff applied at the exact title. -/
theorem C4_witness : is_login_page ⟨some "Login"⟩ = .ok true :=
  (C4_is_login_page_iff.1 "Login").mpr (by decide)

/-- C5 (amended): the duration parser maps the first documented input
to 115 seconds; the second input maps to 4020921 seconds (the value
4021321 stated in the claim is arithmetically wrong: 46 days 12h 55m
21s equals 4020921 s, matching the 4.021e6 comment in scrape.py line
189); inputs that do not match the pattern yield none, and the
function is total (Option-valued), never raising. -/
theorem C5_uptime_parsing :
    get_uptime_str_as_timedelta "0 days 00h:01m:55s.00" = some 115 ∧
    get_uptime_str_as_timedelta "46 days 12h:55m:21s.00" = some 4020921 ∧
    get_uptime_str_as_timedelta "" = none ∧
    get_uptime_str_as_timedelta "46 days 12h:55m:21" = none ∧
    get_uptime_str_as_timedelta "uptime 0 days 00h:01m:55s.00" = none ∧
    get_uptime_str_as_timedelta "46 days" = none :=
  ⟨by decide, by decide, by decide, by decide, by decide, by decide⟩

/-- C5 counterexample: the claim states 4,021,321 seconds for the
second input, but the code computes 4,020,921. -/
theorem C5_counterexample :
    get_uptime_str_as_timedelta "46 days 12h:55m:21s.00" = some 4020921 ∧
    get_uptime_str_as_timedelta "46 days 12h:55m:21s.00" ≠ some 4021321 :=
  ⟨by decide, by decide⟩

/-- C7: a row whose cell count differs from the schema width is
dropped and every other row is projected exactly as it would be
without the dropped row: projecting a table equals projecting the
table with the bad-width rows filtered out, for every schema and
every table (errors and cumulative tallies included). -/
theorem C7_bad_width_rows_dropped (m : MetricsMap) (rows : List Row) :
    do_metrics_update rows m =
      do_metrics_update (rows.filter (fun r => r.length = m.length)) m := by
  rw [do_metrics_update, do_metrics_update]
  by_cases hhdr : "Channel ID" ∈ m.map Prod.fst
  · rw [if_pos hhdr, if_pos hhdr,
      processRows_filter m ((m.map Prod.fst).indexOf "Channel ID") rows ⟨[], [], []⟩]
  · rw [if_neg hhdr, if_neg hhdr]

/-- C7 witness: a table with one short row projects exactly as the
table without it. -/
theorem C7_witness :
    do_metrics_update
        [["5", "Locked"],
         ["4", "Locked", "QAM256", "363000000 Hz", "6.2 dBmV", "40.5 dB", "0", "0"]]
        DS_METRICS =
      do_metrics_update
        ([["5", "Locked"],
          ["4", "Locked", "QAM256", "363000000 Hz", "6.2 dBmV", "40.5 dB", "0", "0"]].filter
          (fun r => r.length = DS_METRICS.length))
        DS_METRICS :=
  C7_bad_width_rows_dropped DS_METRICS
    [["5", "Locked"],
     ["4", "Locked", "QAM256", "363000000 Hz", "6.2 dBmV", "40.5 dB", "0", "0"]]

/-- C10: the system-time parser returns ok none exactly when the
systime paragraph is absent; when the element is present and the text
after the first colon does not parse with the strptime format, the
call raises ValueError instead of returning none. -/
theorem C10_system_time_policy :
    (∀ x : Option String, get_current_system_time x = .ok none ↔ x = none) ∧
    (∀ (t : String) (pre post : List Char),
      splitFirst ':' (trimChars t.data) = some (pre, post) →
      strptimeAB (pyStrip post.asString) = none →
      get_current_system_time (some t) = .error "ValueError") := by
  constructor
  · intro x
    constructor
    · intro h
      rcases x with _ | t
      · rfl
      · rcases hs : splitFirst ':' (trimChars t.data) with _ | ⟨pre, post⟩
        · rw [get_current_system_time, hs] at h
          exact Except.noConfusion h
        · rcases hst : strptimeAB (pyStrip post.asString) with _ | dt
          · simp only [get_current_system_time, hs, hst] at h
            exact Except.noConfusion h
          · simp only [get_current_system_time, hs, hst] at h
            simp at h
    · rintro rfl
      rfl
  · intro t pre post h1 h2
    simp only [get_current_system_time, h1, h2]

/-- C10 witness: the element text with an unparseable remainder raises
ValueError, and the absent element yields none. -/
theorem C10_witness :
    get_current_system_time none = .ok none ∧
    splitFirst ':' (trimChars "Current System Time: tomorrow".data) =
      some ("Current System Time".data, " tomorrow".data) ∧
    strptimeAB (pyStrip (" tomorrow".data).asString) = none ∧
    get_current_system_time (some "Current System Time: tomorrow") = .error "ValueError" :=
  ⟨(C10_system_time_policy.1 none).mpr rfl, by decide, by decide,
    C10_system_time_policy.2 "Current System Time: tomorrow"
      ("Current System Time".data) (" tomorrow".data) (by decide) (by decide)⟩

/-- C2 (amended): when every width-matching row has an integer channel
id cell, the projection never aborts and its per-row section is the
concatenation, over rows, of one independent Option per cell
(cellPerRowUpdate): a cell whose float conversion fails contributes
none, so exactly that cell is skipped and no other cell, row or the
cumulative section is affected.  (The original claim is refuted for
the channel id cell itself: see the counterexample, where int() on the
channel id raises and aborts the whole table.) -/
theorem C2_cell_isolation (m : MetricsMap) (rows : List Row)
    (hhdr : "Channel ID" ∈ m.map Prod.fst)
    (hw : ∀ r ∈ rows, r.length = m.length)
    (hc : ∀ r ∈ rows,
      (pyInt ((r[(m.map Prod.fst).indexOf "Channel ID"]?).getD "")).isSome) :
    do_metrics_update rows m =
      (perRowUpdatesOf m ((m.map Prod.fst).indexOf "Channel ID") rows
        ++ cumUpdatesOf m ((m.map Prod.fst).indexOf "Channel ID") rows, none) :=
  do_metrics_update_clean m rows hhdr hw hc

/-- C2 counterexample: a Channel ID cell that fails integer conversion
aborts the whole table: the second, fully valid row produces no
updates at all, and the ValueError propagates out, refuting the claim
that a conversion failure in any cell (including the Channel ID
position) skips only that cell. -/
theorem C2_counterexample :
    do_metrics_update
        [["BAD", "Locked", "QAM256", "363000000 Hz", "6.2 dBmV", "40.5 dB", "0", "0"],
         ["4", "Locked", "QAM256", "363000000 Hz", "6.2 dBmV", "40.5 dB", "0", "0"]]
        DS_METRICS = ([], some "ValueError") ∧
    (do_metrics_update
        [["4", "Locked", "QAM256", "363000000 Hz", "6.2 dBmV", "40.5 dB", "0", "0"]]
        DS_METRICS).1 ≠ [] :=
  ⟨by decide, by decide⟩

/-- C2 witness: the decomposition at a concrete downstream table whose
SNR cell is unparseable: only that cell is missing from the output. -/
theorem C2_witness :
    ("Channel ID" ∈ DS_METRICS.map Prod.fst) ∧
    (∀ r ∈ [["4", "Locked", "QAM256", "363000000 Hz", "6.2 dBmV", "garbage dB", "0", "0"]],
      r.length = DS_METRICS.length) ∧
    (∀ r ∈ [["4", "Locked", "QAM256", "363000000 Hz", "6.2 dBmV", "garbage dB", "0", "0"]],
      (pyInt ((r[(DS_METRICS.map Prod.fst).indexOf "Channel ID"]?).getD "")).isSome) ∧
    do_metrics_update
        [["4", "Locked", "QAM256", "363000000 Hz", "6.2 dBmV", "garbage dB", "0", "0"]]
        DS_METRICS =
      (perRowUpdatesOf DS_METRICS ((DS_METRICS.map Prod.fst).indexOf "Channel ID")
          [["4", "Locked", "QAM256", "363000000 Hz", "6.2 dBmV", "garbage dB", "0", "0"]]
        ++ cumUpdatesOf DS_METRICS ((DS_METRICS.map Prod.fst).indexOf "Channel ID")
          [["4", "Locked", "QAM256", "363000000 Hz", "6.2 dBmV", "garbage dB", "0", "0"]],
        none) :=
  ⟨by decide, by decide, by decide,
    C2_cell_isolation DS_METRICS
      [["4", "Locked", "QAM256", "363000000 Hz", "6.2 dBmV", "garbage dB", "0", "0"]]
      (by decide) (by decide) (by decide)⟩

/-- C3 (amended): for a cumulative-count (flagged) column whose metric
name is unique in the schema, a clean projection run emits exactly one
cumset per distinct raw first-token value of that column, valued by
the number of rows carrying that token in the current row set; the
values are keyed by the raw token (no uppercase/separator
normalisation, see the counterexample), and a cumset is applied to the
registry with set semantics: the resulting value is the count
regardless of any previously stored value (replace, never add). -/
theorem C3_cumulative_recount (M : MetricsMap)
    (m1 m2 : List (String × Option MetricEntry)) (nm : String) (met : MetricRef)
    (flag : String) (rows : List Row)
    (hM : M = m1 ++ (nm, some ⟨some met, some flag⟩) :: m2)
    (hhdr : "Channel ID" ∈ M.map Prod.fst)
    (hw : ∀ r ∈ rows, r.length = M.length)
    (hc : ∀ r ∈ rows,
      (pyInt ((r[(M.map Prod.fst).indexOf "Channel ID"]?).getD "")).isSome)
    (hne : m1.length ≠ (M.map Prod.fst).indexOf "Channel ID")
    (h1 : ∀ col ∈ m1, col.1 ≠ nm) (h2 : ∀ col ∈ m2, col.1 ≠ nm)
    (hun : ∀ col ∈ m1 ++ m2, metricNameOf col.2 ≠ some met.name) :
    (do_metrics_update rows M).2 = none ∧
    (∀ (v : String) (q : PyVal),
      Update.cumset met.name v q ∈ (do_metrics_update rows M).1 ↔
        (v ∈ rows.map (fun r => firstToken ((r[m1.length]?).getD "")) ∧
          q = PyVal.ofNat
            ((rows.map (fun r => firstToken ((r[m1.length]?).getD ""))).count v))) ∧
    (∀ (reg : Registry) (n l : String) (q : PyVal),
      regLookup (applyUpdate reg (Update.cumset n l q)) (n, l) = some q) := by
  have hclean := do_metrics_update_clean M rows hhdr hw hc
  refine ⟨by rw [hclean], ?_, ?_⟩
  · intro v q
    rw [hclean]
    simp only []
    rw [List.mem_append]
    constructor
    · rintro (hin | hin)
      · have := mem_perRowUpdatesOf_not_cumset hin
        simp [Update.isCumset] at this
      · subst hM
        exact (cumUpdatesOf_char _ m1 m2 nm met flag rows hne h1 h2 hun v q).mp hin
    · intro hr
      right
      subst hM
      exact (cumUpdatesOf_char _ m1 m2 nm met flag rows hne h1 h2 hun v q).mpr hr
  · intro reg n l q
    exact regLookup_regSet_self reg (n, l) q

/-- C3 counterexample: the cumulative tally is keyed by the raw first
token: the emitted labels are SC-QAM and Locked, not the normalised
SC_QAM and LOCKED that the claim describes (the uppercase/replace pass
of scrape.py lines 377-379 lives only in the dead Counter branch). -/
theorem C3_counterexample :
    (do_metrics_update
        [["1", "1", "Locked", "SC-QAM Upstream", "10400000 Hz", "3200000 Hz", "43.0 dBmV"]]
        US_METRICS).1 =
      [Update.gset "sb8200_upstream_frequency_hz" 1 ⟨10400000, 0⟩,
       Update.gset "sb8200_upstream_ch_width_hz" 1 ⟨3200000, 0⟩,
       Update.gset "sb8200_upstream_power_dbmv" 1 ⟨430, 1⟩,
       Update.cumset "sb8200_upstream_channel_lock_count" "Locked" ⟨1, 0⟩,
       Update.cumset "sb8200_upstream_channel_type" "SC-QAM" ⟨1, 0⟩] ∧
    pyEnumNormalize "SC-QAM" = "SC_QAM" ∧
    pyEnumNormalize "Locked" = "LOCKED" :=
  ⟨by decide, by decide, by decide⟩

/-- C3 witness: the upstream Lock Status column over two rows both
reading Locked: the single cumset for Locked carries the count 2. -/
theorem C3_witness :
    (US_METRICS = [("Channel", none), ("Channel ID", none)] ++
      ("Lock Status",
        some ⟨some ⟨"sb8200_upstream_channel_lock_count", MetricKind.gauge⟩, some "cumulative"⟩) ::
      [("US Channel Type", some ⟨some ⟨"sb8200_upstream_channel_type", MetricKind.gauge⟩, some "cumulative"⟩),
       ("Frequency", some ⟨some ⟨"sb8200_upstream_frequency_hz", MetricKind.gauge⟩, none⟩),
       ("Width", some ⟨some ⟨"sb8200_upstream_ch_width_hz", MetricKind.gauge⟩, none⟩),
       ("Power", some ⟨some ⟨"sb8200_upstream_power_dbmv", MetricKind.gauge⟩, none⟩)]) ∧
    ((do_metrics_update
        [["1", "1", "Locked", "SC-QAM Upstream", "10400000 Hz", "3200000 Hz", "43.0 dBmV"],
         ["2", "2", "Locked", "SC-QAM Upstream", "16400000 Hz", "6400000 Hz", "45.0 dBmV"]]
        US_METRICS).2 = none ∧
    (∀ (v : String) (q : PyVal),
      Update.cumset "sb8200_upstream_channel_lock_count" v q ∈
          (do_metrics_update
            [["1", "1", "Locked", "SC-QAM Upstream", "10400000 Hz", "3200000 Hz", "43.0 dBmV"],
             ["2", "2", "Locked", "SC-QAM Upstream", "16400000 Hz", "6400000 Hz", "45.0 dBmV"]]
            US_METRICS).1 ↔
        (v ∈ [["1", "1", "Locked", "SC-QAM Upstream", "10400000 Hz", "3200000 Hz", "43.0 dBmV"],
              ["2", "2", "Locked", "SC-QAM Upstream", "16400000 Hz", "6400000 Hz", "45.0 dBmV"]].map
            (fun r => firstToken ((r[([("Channel", none), ("Channel ID", none)] :
                List (String × Option MetricEntry)).length]?).getD "")) ∧
          q = PyVal.ofNat
            (([["1", "1", "Locked", "SC-QAM Upstream", "10400000 Hz", "3200000 Hz", "43.0 dBmV"],
               ["2", "2", "Locked", "SC-QAM Upstream", "16400000 Hz", "6400000 Hz", "45.0 dBmV"]].map
              (fun r => firstToken ((r[([("Channel", none), ("Channel ID", none)] :
                  List (String × Option MetricEntry)).length]?).getD ""))).count v))) ∧
    (∀ (reg : Registry) (n l : String) (q : PyVal),
      regLookup (applyUpdate reg (Update.cumset n l q)) (n, l) = some q)) :=
  ⟨by decide,
    C3_cumulative_recount US_METRICS [("Channel", none), ("Channel ID", none)]
      [("US Channel Type", some ⟨some ⟨"sb8200_upstream_channel_type", MetricKind.gauge⟩, some "cumulative"⟩),
       ("Frequency", some ⟨some ⟨"sb8200_upstream_frequency_hz", MetricKind.gauge⟩, none⟩),
       ("Width", some ⟨some ⟨"sb8200_upstream_ch_width_hz", MetricKind.gauge⟩, none⟩),
       ("Power", some ⟨some ⟨"sb8200_upstream_power_dbmv", MetricKind.gauge⟩, none⟩)]
      "Lock Status" ⟨"sb8200_upstream_channel_lock_count", MetricKind.gauge⟩ "cumulative"
      [["1", "1", "Locked", "SC-QAM Upstream", "10400000 Hz", "3200000 Hz", "43.0 dBmV"],
       ["2", "2", "Locked", "SC-QAM Upstream", "16400000 Hz", "6400000 Hz", "45.0 dBmV"]]
      (by decide) (by decide) (by decide) (by decide) (by decide) (by decide) (by decide) (by decide)⟩

/-- C6 (amended): when downstream extraction fails
(extract_downstream_channels returns None) the function records the
failure and returns early: the upstream table is NOT extracted or
projected that cycle (no conn_upstream counter event, no updates),
regardless of the upstream content, but no exception propagates (the
cycle is not aborted).  Conversely, when downstream succeeds and only
upstream extraction fails, the downstream updates are still emitted
and only the upstream family is skipped. -/
theorem C6_extraction_early_return (sys : Option String) (dt : Option PyDateTime)
    (us : Option (List Row)) (ds : List Row) (u1 : List Update)
    (hsys : get_current_system_time sys = .ok dt) :
    update_connection_channel_metrics ⟨sys, none, us⟩ =
      ([("datetime", dt.isSome), ("conn_downstream", false)], [], none) ∧
    (do_metrics_update ds DS_METRICS = (u1, none) →
      update_connection_channel_metrics ⟨sys, some ds, none⟩ =
        ([("datetime", dt.isSome), ("conn_downstream", true), ("conn_upstream", false)],
          u1, none)) := by
  constructor
  · simp [update_connection_channel_metrics, hsys]
  · intro hds
    simp [update_connection_channel_metrics, hsys, hds]

/-- C6 counterexample: with downstream extraction failing and a fully
valid upstream table present in the same document, the function emits
no updates at all and no conn_upstream parse event: the upstream table
is not extracted and projected, refuting the claim; the second
conjunct shows the very same upstream table does produce updates when
projected. -/
theorem C6_counterexample :
    update_connection_channel_metrics
        ⟨none, none,
          some [["1", "1", "Locked", "SC-QAM Upstream", "10400000 Hz", "3200000 Hz", "43.0 dBmV"]]⟩ =
      ([("datetime", false), ("conn_downstream", false)], [], none) ∧
    (do_metrics_update
        [["1", "1", "Locked", "SC-QAM Upstream", "10400000 Hz", "3200000 Hz", "43.0 dBmV"]]
        US_METRICS).1 ≠ [] :=
  ⟨by decide, by decide⟩

/-- C6 witness: the amended behaviour at a concrete page. -/
theorem C6_witness :
    get_current_system_time none = .ok none ∧
    update_connection_channel_metrics
        ⟨none, none,
          some [["1", "1", "Locked", "SC-QAM Upstream", "10400000 Hz", "3200000 Hz", "43.0 dBmV"]]⟩ =
      ([("datetime", false), ("conn_downstream", false)], [], none) ∧
    update_connection_channel_metrics
        ⟨none, some [["4", "Locked", "QAM256", "363000000 Hz", "6.2 dBmV", "40.5 dB", "0", "0"]],
          none⟩ =
      ([("datetime", false), ("conn_downstream", true), ("conn_upstream", false)],
        [Update.gset "sb8200_downstream_frequency_hz" 4 ⟨363000000, 0⟩,
         Update.gset "sb8200_downstream_power_dbmv" 4 ⟨62, 1⟩,
         Update.gset "sb8200_downstream_snr_dbmv" 4 ⟨405, 1⟩,
         Update.sobserve "sb8200_downstream_corrected" 4 ⟨0, 0⟩,
         Update.sobserve "sb8200_downstream_uncorrectable" 4 ⟨0, 0⟩,
         Update.cumset "sb8200_downstream_channel_lock_status_count" "Locked" ⟨1, 0⟩,
         Update.cumset "sb8200_downstream_modulation_scheme_count" "QAM256" ⟨1, 0⟩],
        none) :=
  ⟨by decide,
    (C6_extraction_early_return none none
      (some [["1", "1", "Locked", "SC-QAM Upstream", "10400000 Hz", "3200000 Hz", "43.0 dBmV"]])
      [] [] (by decide)).1,
    (C6_extraction_early_return none none none
      [["4", "Locked", "QAM256", "363000000 Hz", "6.2 dBmV", "40.5 dB", "0", "0"]]
      [Update.gset "sb8200_downstream_frequency_hz" 4 ⟨363000000, 0⟩,
       Update.gset "sb8200_downstream_power_dbmv" 4 ⟨62, 1⟩,
       Update.gset "sb8200_downstream_snr_dbmv" 4 ⟨405, 1⟩,
       Update.sobserve "sb8200_downstream_corrected" 4 ⟨0, 0⟩,
       Update.sobserve "sb8200_downstream_uncorrectable" 4 ⟨0, 0⟩,
       Update.cumset "sb8200_downstream_channel_lock_status_count" "Locked" ⟨1, 0⟩,
       Update.cumset "sb8200_downstream_modulation_scheme_count" "QAM256" ⟨1, 0⟩]
      (by decide)).2 (by decide)⟩

/-- C8: the channel id cell is never published as a metric value.
First, every registry write of any projection run carries the metric
name of some column other than the channel id column (so nothing is
ever written to a metric attached to the Channel ID position).
Second, the entire output is invariant under replacing the channel id
cell of any row by any string with the same integer value: the cell is
consumed only through int(), as the label of the per-entity updates. -/
theorem C8_channel_id_label_only :
    (∀ (m : MetricsMap) (rows : List Row) (u : Update),
      u ∈ (do_metrics_update rows m).1 →
        u.metricName ∈ nonChMetricNames m ((m.map Prod.fst).indexOf "Channel ID")) ∧
    (∀ (m : MetricsMap) (row : Row) (pre post : List Row) (a b : String),
      pyInt a = pyInt b →
        do_metrics_update
            (pre ++ (row.set ((m.map Prod.fst).indexOf "Channel ID") a) :: post) m =
          do_metrics_update
            (pre ++ (row.set ((m.map Prod.fst).indexOf "Channel ID") b) :: post) m) :=
  ⟨fun m rows u hu => do_metrics_update_names m rows u hu,
   fun m row pre post a b hab => do_metrics_update_set m row pre post a b hab⟩

/-- C8 witness: a concrete update of a downstream run names a
non-channel-id metric, and replacing the channel id cell 4 by the
whitespace-padded " 4 " (same int) leaves the whole output unchanged. -/
theorem C8_witness :
    (Update.gset "sb8200_downstream_frequency_hz" 4 ⟨363000000, 0⟩ ∈
      (do_metrics_update
        [["4", "Locked", "QAM256", "363000000 Hz", "6.2 dBmV", "40.5 dB", "0", "0"]]
        DS_METRICS).1) ∧
    (Update.gset "sb8200_downstream_frequency_hz" 4 ⟨363000000, 0⟩).metricName ∈
      nonChMetricNames DS_METRICS ((DS_METRICS.map Prod.fst).indexOf "Channel ID") ∧
    pyInt "4" = pyInt " 4 " ∧
    do_metrics_update
        ([] ++ ((["x", "Locked", "QAM256", "363000000 Hz", "6.2 dBmV", "40.5 dB", "0", "0"] :
            Row).set ((DS_METRICS.map Prod.fst).indexOf "Channel ID") "4") :: []) DS_METRICS =
      do_metrics_update
        ([] ++ ((["x", "Locked", "QAM256", "363000000 Hz", "6.2 dBmV", "40.5 dB", "0", "0"] :
            Row).set ((DS_METRICS.map Prod.fst).indexOf "Channel ID") " 4 ") :: []) DS_METRICS :=
  ⟨by decide,
    C8_channel_id_label_only.1 DS_METRICS
      [["4", "Locked", "QAM256", "363000000 Hz", "6.2 dBmV", "40.5 dB", "0", "0"]]
      (Update.gset "sb8200_downstream_frequency_hz" 4 ⟨363000000, 0⟩) (by decide),
    by decide,
    C8_channel_id_label_only.2 DS_METRICS
      ["x", "Locked", "QAM256", "363000000 Hz", "6.2 dBmV", "40.5 dB", "0", "0"]
      [] [] "4" " 4 " (by decide)⟩

/-- C9: when a fetched page is detected as the login page (with both
data fetches returning 200 and, when a login was needed, a successful
login), the csrf token is cleared so the next iteration performs a
login again; and the iteration ends with an immediate continue when
the session was reused, or with a sleep of the re-login interval when
a fresh login had just been performed. -/
theorem C9_login_page_policy (pollI reloginI : Nat) (st : LoopState) (env : FetchEnv)
    (hauth : reuse_login st = false → env.authPresent = true ∧ env.loginStatus = 200)
    (hconn : env.connStatus = 200) (hprod : env.prodStatus = 200)
    (hlp : is_login_page ⟨env.connTitle⟩ = .ok true ∨
      (is_login_page ⟨env.connTitle⟩ = .ok false ∧
        is_login_page ⟨env.prodTitle⟩ = .ok true)) :
    (main_loop_cycle pollI reloginI st env).2.csrf = none ∧
    (main_loop_cycle pollI reloginI st env).1 =
      (if reuse_login st then CycleResult.continueNow
        else CycleResult.sleepThenContinue reloginI) := by
  by_cases hr : reuse_login st = true
  · rcases hlp with hl | ⟨hl1, hl2⟩
    · simp [main_loop_cycle, cycleFetch, cycleLoginCheck, hr, hconn, hprod, hl]
    · simp [main_loop_cycle, cycleFetch, cycleLoginCheck, hr, hconn, hprod, hl1, hl2]
  · rw [Bool.not_eq_true] at hr
    rcases hauth hr with ⟨ha, hlog⟩
    rcases hlp with hl | ⟨hl1, hl2⟩
    · simp [main_loop_cycle, cycleFetch, cycleLoginCheck, hr, hconn, hprod, ha, hlog, hl]
    · simp [main_loop_cycle, cycleFetch, cycleLoginCheck, hr, hconn, hprod, ha, hlog,
        hl1, hl2]

/-- C9 witness: reusing a session (cookies present, token set) and
hitting a login page continues immediately with the token cleared;
after a fresh login the same detection sleeps the re-login interval. -/
theorem C9_witness :
    (reuse_login ⟨some "t", 1⟩ = true) ∧ (reuse_login ⟨none, 0⟩ = false) ∧
    ((main_loop_cycle 60 5 ⟨some "t", 1⟩
        ⟨true, 200, "tok", true, 200, 200, some "Login", some "Status", true⟩).2.csrf = none ∧
      (main_loop_cycle 60 5 ⟨some "t", 1⟩
        ⟨true, 200, "tok", true, 200, 200, some "Login", some "Status", true⟩).1 =
        (if reuse_login ⟨some "t", 1⟩ then CycleResult.continueNow
          else CycleResult.sleepThenContinue 5)) ∧
    ((main_loop_cycle 60 5 ⟨none, 0⟩
        ⟨true, 200, "tok", true, 200, 200, some "Login", some "Status", true⟩).2.csrf = none ∧
      (main_loop_cycle 60 5 ⟨none, 0⟩
        ⟨true, 200, "tok", true, 200, 200, some "Login", some "Status", true⟩).1 =
        (if reuse_login ⟨none, 0⟩ then CycleResult.continueNow
          else CycleResult.sleepThenContinue 5)) :=
  ⟨by decide, by decide,
    C9_login_page_policy 60 5 ⟨some "t", 1⟩
      ⟨true, 200, "tok", true, 200, 200, some "Login", some "Status", true⟩
      (by decide) rfl rfl (Or.inl (by decide)),
    C9_login_page_policy 60 5 ⟨none, 0⟩
      ⟨true, 200, "tok", true, 200, 200, some "Login", some "Status", true⟩
      (by decide) rfl rfl (Or.inl (by decide))⟩
